import Mathlib

/-!
Verification development for the rlm-rs agent server.

This file gives a shallow embedding of the core of the repository:

* the REPL agent loop of `crates/rlm/src/rlm.rs` and its helpers in
  `crates/rlm/src/utils.rs` (code-block extraction, final-answer detection,
  execution-result formatting and history append);
* the sandbox worker dispatch of `crates/app/src/bin/sandbox_worker.rs`;
* the sub-call size guard and the in-interpreter safety shim of
  `crates/rlm/src/repl.rs` (import allowlist, exception capture);
* the session manager of `crates/app/src/session.rs` (LRU eviction,
  per-session actors) and the inline session worker of
  `crates/app/src/main.rs`;
* the ingress query extraction of `crates/app/src/main.rs`.

Rust `String`/`&str` values are modelled as `List Char` (the sources only
branch on ASCII content, where byte length and char count agree).  The
opaque external collaborators — the upstream `LlmClient`, the embedded
Python interpreter behind `ReplHandle`/`ReplEnv`, and the sandbox process
behind `SandboxHandle` — are parameters of the model (`ReplOps`, `runUser`,
`runH`), exactly as the specification declares them out of scope.  Every
function that the Rust sources define is translated definitionally; loops
are translated to structural recursion, with an explicit fuel argument
(plus a fuel-irrelevance lemma) where the Rust loop is not structural.
-/

set_option maxRecDepth 4000

namespace Rlm

/-- Rust strings are modelled as lists of characters. -/
abbrev Chars := List Char

/-- Whitespace as used by Rust's regex `\s` class and `str::trim`, restricted
to the ASCII range (the sources never branch on non-ASCII whitespace). -/
def wspChar (c : Char) : Bool :=
  c == ' ' || c == '\t' || c == '\n' || c == '\r' || c == '\x0B' || c == '\x0C'

/-- Rust `str::trim`: drop whitespace from both ends. -/
def rust_trim (cs : Chars) : Chars :=
  ((cs.dropWhile wspChar).reverse.dropWhile wspChar).reverse

/-- Rust `str::trim_matches(ch)`: drop all leading and trailing occurrences
of one character. -/
def trim_matches (ch : Char) (cs : Chars) : Chars :=
  ((cs.dropWhile (· == ch)).reverse.dropWhile (· == ch)).reverse

/-- Split a character list at the first occurrence of `target`: the part
before it and the part after it. `none` when `target` does not occur. -/
def splitAtFirst (target : Char) : Chars → Option (Chars × Chars)
  | [] => none
  | c :: rest =>
    if c == target then some ([], rest)
    else (splitAtFirst target rest).map fun p => (c :: p.1, p.2)

/-- Split a character list at the first occurrence of the substring `pat`:
the part before it and the part after it. -/
def findSub (pat : Chars) : Chars → Option (Chars × Chars)
  | [] => if pat.isEmpty then some ([], []) else none
  | c :: rest =>
    if pat.isPrefixOf (c :: rest) then some ([], (c :: rest).drop pat.length)
    else (findSub pat rest).map fun p => (c :: p.1, p.2)

/-- Decimal rendering of a usize, as Rust's `format!` interpolates it. -/
def natChars (n : Nat) : Chars := (Nat.repr n).toList

/-- Fuelled body of `rust_replace`; the fuel is one unit per consumed
character, so `hay.length` is always enough (each step consumes at least
one character of the haystack). -/
def rustReplaceAux (pat rep : Chars) : Nat → Chars → Chars
  | _, [] => []
  | 0, hay => hay
  | fuel+1, c :: rest =>
    if !pat.isEmpty && pat.isPrefixOf (c :: rest) then
      rep ++ rustReplaceAux pat rep fuel ((c :: rest).drop pat.length)
    else
      c :: rustReplaceAux pat rep fuel rest

/-- Rust `str::replace`: replace every non-overlapping occurrence of `pat`,
scanning left to right. (The sources only call it with a non-empty
pattern.) -/
def rust_replace (hay pat rep : Chars) : Chars :=
  rustReplaceAux pat rep hay.length hay

/-- `Message` from `crates/rlm/src/llm.rs`: a role and a content string. -/
structure Message where
  role : Chars
  content : Chars
deriving DecidableEq

/-- `Message::system` constructor. -/
def Message.mkSystem (content : Chars) : Message := ⟨"system".toList, content⟩

/-- `Message::user` constructor. -/
def Message.mkUser (content : Chars) : Message := ⟨"user".toList, content⟩

/-- `Message::assistant` constructor. -/
def Message.mkAssistant (content : Chars) : Message := ⟨"assistant".toList, content⟩

/-! ## Final-answer detection (`find_final_answer`, `crates/rlm/src/utils.rs`)

The two regexes `(?ms)^\s*FINAL_VAR\((.*?)\)` and `(?ms)^\s*FINAL\((.*?)\)`
are embedded directly. With the `m` flag `^` anchors at position 0 and
after every newline; `\s*` then has to consume exactly the maximal
whitespace run (the next literal is not whitespace, so backtracking is
forced); with the `s` flag the lazy capture `(.*?)` ranges over newlines
and, followed by the literal `)`, captures everything up to the *first*
`)` after the marker. The regex crate's leftmost-match rule corresponds
to scanning the anchors left to right. -/

/-- Try the pattern `\s*MARKER(.*?)\)` at one anchor position: skip the
whitespace run, require the literal marker, capture up to the first `)`. -/
def anchoredCapture (marker : Chars) (cs : Chars) : Option Chars :=
  let rest := cs.dropWhile wspChar
  if marker.isPrefixOf rest then
    (splitAtFirst ')' (rest.drop marker.length)).map Prod.fst
  else none

/-- Scan all `(?m)^` anchor positions left to right, attempting
`anchoredCapture` at each; `lineStart` records whether the current
position is an anchor (position 0 or just after a newline). -/
def scanMarker (marker : Chars) : Chars → Bool → Option Chars
  | [], lineStart =>
    match (if lineStart then anchoredCapture marker [] else none) with
    | some cap => some cap
    | none => none
  | c :: rest, lineStart =>
    match (if lineStart then anchoredCapture marker (c :: rest) else none) with
    | some cap => some cap
    | none => scanMarker marker rest (c == '\n')

/-- `FinalAnswerKind` from `crates/rlm/src/utils.rs`. -/
inductive FinalAnswerKind where
  | final
  | finalVar
deriving DecidableEq

/-- The literal of the `FINAL_VAR` regex up to the capture group. -/
def FINAL_VAR_MARKER : Chars := ['F','I','N','A','L','_','V','A','R','(']

/-- The literal of the `FINAL` regex up to the capture group. -/
def FINAL_MARKER : Chars := ['F','I','N','A','L','(']

/-- `find_final_answer` (`crates/rlm/src/utils.rs` 172-182): try the
`FINAL_VAR` regex first, then the `FINAL` regex; the capture is trimmed. -/
def find_final_answer (text : Chars) : Option (FinalAnswerKind × Chars) :=
  match scanMarker FINAL_VAR_MARKER text true with
  | some cap => some (.finalVar, rust_trim cap)
  | none =>
    match scanMarker FINAL_MARKER text true with
    | some cap => some (.final, rust_trim cap)
    | none => none

/-! ## Code-block extraction (`find_code_blocks`, `crates/rlm/src/utils.rs`)

The regex is ```` ```repl\s*\n(?s:(.*?))\n``` ````: after the literal
```` ```repl ````, `\s*\n` must end at a newline of the whitespace run
that follows the literal (the run is maximal, so the `\n` can only come
from inside it); the greedy `\s*` prefers the run's *last* newline but,
under the regex crate's leftmost-first semantics, backtracks to earlier
newlines when no closing fence follows the preferred one.  For the chosen
newline the lazy dotall body runs up to the first occurrence of
`"\n```"`.  Matches are non-overlapping, and each capture is trimmed. -/

/-- The opening literal ```` ```repl ````. -/
def CODE_BLOCK_OPEN : Chars := ['`','`','`','r','e','p','l']

/-- The closing literal, a newline and three backticks. -/
def CODE_BLOCK_CLOSE : Chars := ['\n','`','`','`']

/-- The indices of the newlines of a character list, in increasing order. -/
def newlineIdxs : Chars → List Nat
  | [] => []
  | c :: rest =>
    let tail := (newlineIdxs rest).map fun i => i + 1
    if c == '\n' then 0 :: tail else tail

/-- Try each candidate end-of-`\s*` newline in turn (the list carries the
greedy preference order: last newline of the run first).  A candidate `k`
succeeds when a closing fence occurs at or after `k + 1`; the lazy body is
everything before the first such fence. -/
def tryCloseFrom (after : Chars) : List Nat → Option (Chars × Chars)
  | [] => none
  | k :: ks =>
    match findSub CODE_BLOCK_CLOSE (after.drop (k + 1)) with
    | some (body, rest) => some (rust_trim body, rest)
    | none => tryCloseFrom after ks

/-- Try to match one fenced `repl` block at the current position: the
greedy `\s*\n` backtracks from the last newline of the whitespace run; on
success return the trimmed body and the text after the closing fence. -/
def tryCodeBlockAt (cs : Chars) : Option (Chars × Chars) :=
  if CODE_BLOCK_OPEN.isPrefixOf cs then
    let after := cs.drop CODE_BLOCK_OPEN.length
    let run := after.takeWhile wspChar
    tryCloseFrom after (newlineIdxs run).reverse
  else none

/-- Fuelled scan for `find_code_blocks`: at each position try a match and
continue after it, else advance one character. One unit of fuel per
consumed character, so the text's length is always enough fuel. -/
def findCodeBlocksAux : Nat → Chars → List Chars
  | 0, _ => []
  | fuel+1, cs =>
    match tryCodeBlockAt cs with
    | some (body, rest) => body :: findCodeBlocksAux fuel rest
    | none =>
      match cs with
      | [] => []
      | _ :: t => findCodeBlocksAux fuel t

/-- `find_code_blocks` (`crates/rlm/src/utils.rs` 159-165). -/
def find_code_blocks (text : Chars) : List Chars :=
  findCodeBlocksAux text.length text

/-! ## Execution results and their formatting (`crates/rlm/src/utils.rs`) -/

/-- `LocalValue` from `crates/rlm/src/repl.rs`. -/
structure LocalValue where
  name : Chars
  repr : Chars
  is_simple : Bool
  string_value : Option Chars
deriving DecidableEq

/-- `ReplResult` from `crates/rlm/src/repl.rs` (the `execution_time : f64`
field is floating point, never branched on by the code under study, and is
not modelled). -/
structure ReplResult where
  stdout : Chars
  stderr : Chars
  locals : List LocalValue
  locals_map : List (Chars × Chars)
deriving DecidableEq

/-- `should_skip_var_name` (`crates/rlm/src/utils.rs` 245-247). -/
def should_skip_var_name (name : Chars) : Bool :=
  (match name with | '_' :: _ => true | _ => false)
  || name == "__builtins__".toList || name == "__name__".toList || name == "__doc__".toList

/-- `truncate_string` (`crates/rlm/src/utils.rs` 249-258). In the char-list
model every position is a char boundary, so the boundary-backoff loop of
the Rust source is the identity. -/
def truncate_string (value : Chars) (maxLen : Nat) : Chars × Bool :=
  if value.length ≤ maxLen then (value, false) else (value.take maxLen, true)

/-- `escape_string` (`crates/rlm/src/utils.rs` 260-262). -/
def escape_string (value : Chars) : Chars :=
  rust_replace (rust_replace value ['\\'] ['\\','\\']) ['\''] ['\\','\'']

/-- Display of one simple local, from the body of `format_execution_result`. -/
def localDisplay (l : LocalValue) : Chars :=
  match l.string_value with
  | some value =>
    let t := truncate_string value 100
    if t.2 then '\'' :: (escape_string t.1 ++ "...'".toList) else l.repr
  | none => l.repr

/-- The `vars` entries collected from `result.locals`. -/
def formatVarsFromLocals (locals : List LocalValue) : List Chars :=
  (locals.filter fun l => !(should_skip_var_name l.name) && l.is_simple).map
    fun l => l.name ++ '=' :: localDisplay l

/-- The fallback `vars` entries collected from `result.locals_map`. -/
def formatVarsFromMap (m : List (Chars × Chars)) : List Chars :=
  (m.filter fun p => !(should_skip_var_name p.1)).map fun p => p.1 ++ '=' :: p.2

/-- `format_execution_result` (`crates/rlm/src/utils.rs` 200-243). -/
def format_execution_result (result : ReplResult) : Chars :=
  let parts : List Chars :=
    (if result.stdout.isEmpty then [] else ['\n' :: result.stdout]) ++
    (if result.stderr.isEmpty then [] else ['\n' :: result.stderr]) ++
    (if result.locals.isEmpty && result.locals_map.isEmpty then []
     else
       let vars := formatVarsFromLocals result.locals
       let vars := if vars.isEmpty then formatVarsFromMap result.locals_map else vars
       if vars.isEmpty then []
       else ["REPL variables: [".toList ++ List.intercalate ", ".toList vars ++ "]\n".toList])
  if parts.isEmpty then "No output".toList else List.intercalate ['\n'] parts

/-! ## The abstract interpreter and LLM operations

`ReplOps` collects the opaque collaborators of the agent loop: `mkEnv`
models `ReplHandle::new` plus `init` (building a fresh `ReplEnv` from the
request context — `context_from_value`/`convert_context_for_repl` are pure
data plumbing folded into it, no claim inspects them); `exec` models
`ReplEnv::execute` reached through the repl worker thread; `getVar` models
`ReplEnv::get_variable`; `llm` models the opaque `LlmClient::completion`.
Errors are carried as their `to_string()` rendering. -/
structure ReplOps (σ κ : Type) where
  mkEnv : Option κ → Except Chars σ
  exec : σ → Chars → σ × Except Chars ReplResult
  getVar : σ → Chars → Except Chars (Option Chars)
  llm : List Message → Except Chars Chars

/-- `execute_code` of `crates/rlm/src/utils.rs` (264-286): run the code and
format the result, or render the error as `Error executing code: {err}`. -/
def execute_code_util {σ κ : Type} (O : ReplOps σ κ) (env : σ) (code : Chars) : σ × Chars :=
  match O.exec env code with
  | (env', .ok result) => (env', format_execution_result result)
  | (env', .error err) => (env', "Error executing code: ".toList ++ err)

/-- Rust `usize::MAX` (the sources run on a 64-bit target). -/
def USIZE_MAX : Nat := 2 ^ 64 - 1

/-- `add_execution_result_to_messages` (`crates/rlm/src/utils.rs` 184-198):
truncate the output to `max_character_length` characters, appending `...`
when truncation happened, and push the formatted user message. -/
def add_execution_result_to_messages (messages : List Message) (code result : Chars)
    (max_character_length : Nat) : List Message :=
  let output :=
    if result.length > max_character_length then
      result.take max_character_length ++ "...".toList
    else result
  messages ++ [Message.mkUser ("Code executed:\n```python\n".toList ++ code ++
    "\n```\n\nREPL output:\n".toList ++ output)]

/-- The per-block loop body of `process_code_execution`. -/
def processBlocks {σ κ : Type} (O : ReplOps σ κ) (disable_recursive : Bool) :
    List Chars → List Message → σ → List Message × σ
  | [], messages, env => (messages, env)
  | code :: more, messages, env =>
    let r := execute_code_util O env code
    let maxLen := if disable_recursive then USIZE_MAX else 100000
    processBlocks O disable_recursive more
      (add_execution_result_to_messages messages code r.2 maxLen) r.1

/-- `process_code_execution` (`crates/rlm/src/utils.rs` 288-306). -/
def process_code_execution {σ κ : Type} (O : ReplOps σ κ) (response : Chars)
    (messages : List Message) (env : σ) (disable_recursive : Bool) : List Message × σ :=
  processBlocks O disable_recursive (find_code_blocks response) messages env

/-- `check_for_final_answer` (`crates/rlm/src/utils.rs` 308-338): a `FINAL`
capture is returned as is; a `FINAL_VAR` capture is trimmed and looked up in
the interpreter's locals; a missing variable or a lookup error yields `none`
(the loop continues). -/
def check_for_final_answer {σ κ : Type} (O : ReplOps σ κ) (response : Chars) (env : σ) :
    Option Chars :=
  match find_final_answer response with
  | none => none
  | some (.final, content) => some content
  | some (.finalVar, content) =>
    let variable_name :=
      trim_matches '\r' (trim_matches '\n' (trim_matches '\'' (trim_matches '"'
        (rust_trim content))))
    match O.getVar env variable_name with
    | .ok (some value) => some value
    | .ok none => none
    | .error _ => none

/-! ## Prompts (`crates/rlm/src/prompts.rs`) -/

/-- `DEFAULT_QUERY` from `crates/rlm/src/prompts.rs`. -/
def DEFAULT_QUERY : Chars :=
  "Please read through the context and answer any queries or respond to any instructions contained within it.".toList

/-- `REPL_SYSTEM_PROMPT` from `crates/rlm/src/prompts.rs`, the fixed system
message (inert data: the code under study only ever compares it with
itself). -/
def REPL_SYSTEM_PROMPT : Chars :=
  ("You are tasked with answering a query with associated context. You can access, transform, and analyze this context interactively in a REPL environment that can recursively query sub-LLMs. Use sub-queries only when they help; avoid exhaustive or repetitive sub-calls. You will be queried iteratively until you provide a final answer.\n\nThe REPL environment is initialized with:\n1. A `context` variable that contains extremely important information about your query. You should check the content of the `context` variable to understand what you are working with. Make sure you look through it sufficiently as you answer your query.\n2. A `llm_query` function that allows you to query an LLM (that can handle around 500K chars) inside your REPL environment.\n3. The ability to use `print()` statements to view the output of your REPL code and continue your reasoning.\n\nYou will only be able to see truncated outputs from the REPL environment, so you should use the query LLM function on variables you want to analyze. You will find this function especially useful when you have to analyze the semantics of the context. Use these variables as buffers to build up your final answer.\nInspect relevant parts of the context in REPL before answering. Avoid scanning the entire context unless it is necessary to answer the query. Prefer: sample -> identify structure -> target -> summarize -> answer.\n\nYou can use the REPL environment to help you understand your context, especially if it is huge. Remember that your sub LLMs are powerful -- they can fit around 500K characters in their context window. Use them to answer targeted questions, not to exhaustively map the entire context unless required.\n\nWhen you want to execute Python code in the REPL environment, wrap it in triple backticks with 'repl' language identifier. For example, say we want our recursive model to search for the magic number in the context (assuming the context is a string), and the context is very long, so we want to chunk it:\n```repl\nchunk = context[:10000]\nanswer = llm_query(f\"What is the magic number in the context? Here is the chunk: {{chunk}}\")\nprint(answer)\n```\n\nAs an example, after analyzing the context and realizing its separated by Markdown headers, we can maintain state through buffers by chunking the context by headers, and iteratively querying an LLM over it:\n```repl\n# After finding out the context is separated by Markdown headers, we can chunk, summarize, and answer\nimport re\nsections = re.split(r'### (.+)', context[\"content\"])\nbuffers = []\nfor i in range(1, len(sections), 2):\n    header = sections[i]\n    info = sections[i+1]\n    summary = llm_query(f\"Summarize this {{header}} section: {{info}}\")\n    buffers.append(f\"{{header}}: {{summary}}\")\nfinal_answer = llm_query(f\"Based on these summaries, answer the original query: {{query}}\\n\\nSummaries:\\n\" + \"\\n\".join(buffers))\n```\nIn the next step, we can return FINAL_VAR(final_answer).\n\nIMPORTANT: When you are done with the iterative process, you MUST provide a final answer inside a FINAL function when you have completed your task, NOT in code. Do not use these tags unless you have completed your task. If you already have enough information, stop sub-calling and answer. You have two options:\n1. Use FINAL(your final answer here) to provide the answer directly\n2. Use FINAL_VAR(variable_name) to return a variable you have created in the REPL environment as your final output\n\nThink step by step carefully, plan, and execute this plan immediately in your response -- do not just say \"I will do this\" or \"I will do that\". Use the REPL environment and sub-queries when they add value, and avoid unbounded loops. Remember to explicitly answer the original query in your final answer.\n").toList

/-- `USER_PROMPT` from `crates/rlm/src/prompts.rs`. -/
def USER_PROMPT : Chars :=
  "Think step-by-step on what to do using the REPL environment (which contains the context) to answer the original query: \"{query}\".\n\nUse the REPL environment and sub-LLM queries only as needed, avoid exhaustive loops, and stop once you have enough information. Your next action:".toList

/-- `build_system_prompt` (`crates/rlm/src/prompts.rs`). -/
def build_system_prompt : List Message := [Message.mkSystem REPL_SYSTEM_PROMPT]

/-- `next_action_prompt` (`crates/rlm/src/prompts.rs`). -/
def next_action_prompt (query : Chars) (iteration : Nat) (final_answer : Bool) : Message :=
  if final_answer then
    Message.mkUser "Based on all the information you have, provide a final answer to the user's query.".toList
  else if iteration == 0 then
    Message.mkUser
      ("You have not interacted with the REPL environment or seen your context yet. Your next action should be to look through, don't just provide a final answer yet.\n\n".toList
        ++ rust_replace USER_PROMPT "{query}".toList query)
  else
    Message.mkUser
      ("The history before is your previous interactions with the REPL environment. ".toList
        ++ rust_replace USER_PROMPT "{query}".toList query)

/-! ## The RLM repl driver (`crates/rlm/src/rlm.rs`) -/

/-- The configuration fields of `RlmConfig` that the driver branches on. -/
structure RlmCfg where
  max_iterations : Nat
  disable_recursive : Bool
deriving DecidableEq

/-- The mutable state of `RlmRepl`: the conversation, the optional
interpreter environment, the persisted query. -/
structure RlmState (σ : Type) where
  messages : List Message
  repl_env : Option σ
  query : Option Chars
deriving DecidableEq

/-- The state `RlmRepl::new` builds: no messages, no environment, no query. -/
def freshRlmState {σ : Type} : RlmState σ := ⟨[], none, none⟩

/-- `reset_messages_to_system_prompt` (`crates/rlm/src/rlm.rs` 186-195). -/
def reset_messages_to_system_prompt (messages : List Message) : List Message :=
  match messages with
  | first :: _ =>
    if first.role == "system".toList && first.content == REPL_SYSTEM_PROMPT then
      messages.take 1
    else build_system_prompt
  | [] => build_system_prompt

/-- `setup_context` (`crates/rlm/src/rlm.rs` 64-87): persist the query,
reset the conversation to the system prompt, and rebuild the interpreter
environment from the context; on an init error the old environment is
kept (as `ReplCore::init` leaves it). -/
def setup_context {σ κ : Type} (O : ReplOps σ κ) (st : RlmState σ) (context : Option κ)
    (query : Option Chars) : RlmState σ × Except Chars Unit :=
  let q := query.getD DEFAULT_QUERY
  let st1 : RlmState σ :=
    { st with query := some q, messages := reset_messages_to_system_prompt st.messages }
  match O.mkEnv context with
  | .error e => (st1, .error e)
  | .ok env => ({ st1 with repl_env := some env }, .ok ())

/-- The `for iteration in 0..max_iterations` loop of `run_completion_loop`
(`crates/rlm/src/rlm.rs` 126-173), with the terminal final-prompt call when
the fuel (remaining iterations) runs out.  The transient next-action prompt
is pushed before the model call and popped after it; an LLM error
propagates with the prompt still pushed, as in the source. -/
def runLoopAux {σ κ : Type} (O : ReplOps σ κ) (cfg : RlmCfg) (q : Chars) :
    Nat → Nat → List Message → σ → List Message × σ × Except Chars Chars
  | 0, _, messages, env =>
    let messages := messages ++ [next_action_prompt q cfg.max_iterations true]
    (messages, env, O.llm messages)
  | fuel+1, iteration, messages, env =>
    let withPrompt := messages ++ [next_action_prompt q iteration false]
    match O.llm withPrompt with
    | .error e => (withPrompt, env, .error e)
    | .ok response =>
      let messages := withPrompt.dropLast
      let code_blocks := find_code_blocks response
      let step :=
        if !code_blocks.isEmpty then
          process_code_execution O response messages env cfg.disable_recursive
        else
          (messages ++ [Message.mkAssistant ("You responded with:\n".toList ++ response)], env)
      match check_for_final_answer O response step.2 with
      | some final => (step.1, step.2, .ok final)
      | none => runLoopAux O cfg q fuel (iteration + 1) step.1 step.2

/-- `run_completion_loop` (`crates/rlm/src/rlm.rs` 126-173). -/
def run_completion_loop {σ κ : Type} (O : ReplOps σ κ) (cfg : RlmCfg) (st : RlmState σ)
    (q : Chars) : RlmState σ × Except Chars Chars :=
  match st.repl_env with
  | none => (st, .error "repl env not initialized".toList)
  | some env =>
    let r := runLoopAux O cfg q cfg.max_iterations 0 st.messages env
    ({ st with messages := r.1, repl_env := some r.2.1 }, r.2.2)

/-- `completion` (`crates/rlm/src/rlm.rs` 89-101). -/
def completion {σ κ : Type} (O : ReplOps σ κ) (cfg : RlmCfg) (st : RlmState σ)
    (context : Option κ) (query : Option Chars) : RlmState σ × Except Chars Chars :=
  let s := setup_context O st context query
  match s.2 with
  | .error e => (s.1, .error e)
  | .ok _ =>
    let q := s.1.query.getD DEFAULT_QUERY
    run_completion_loop O cfg s.1 q

/-- `completion_with_existing` (`crates/rlm/src/rlm.rs` 103-116): bail when
no interpreter environment exists; otherwise persist the query, reset the
conversation to the system prompt (the interpreter environment is left
untouched) and run the completion loop. -/
def completion_with_existing {σ κ : Type} (O : ReplOps σ κ) (cfg : RlmCfg) (st : RlmState σ)
    (query : Option Chars) : RlmState σ × Except Chars Chars :=
  if st.repl_env.isNone then (st, .error "repl env not initialized".toList)
  else
    let q := query.getD DEFAULT_QUERY
    let st1 : RlmState σ :=
      { st with query := some q, messages := reset_messages_to_system_prompt st.messages }
    run_completion_loop O cfg st1 q

/-- `execute_code` (`crates/rlm/src/rlm.rs` 118-124): bail when no
interpreter environment exists, else execute against it (the environment
advances behind the handle). -/
def execute_code {σ κ : Type} (O : ReplOps σ κ) (st : RlmState σ) (code : Chars) :
    RlmState σ × Except Chars ReplResult :=
  match st.repl_env with
  | none => (st, .error "repl env not initialized".toList)
  | some env =>
    let r := O.exec env code
    ({ st with repl_env := some r.1 }, r.2)

/-! ## The sandbox worker (`crates/app/src/bin/sandbox_worker.rs`) -/

/-- `SandboxRunRequest` from `crates/app/src/protocol.rs`; the JSON context
value is opaque to the claims and is modelled by a type parameter. -/
structure SandboxRunRequest (κ : Type) where
  init : Bool
  query : Chars
  context : Option κ
  code : Option Chars
deriving DecidableEq

/-- `SandboxRunResult` from `crates/app/src/protocol.rs`. -/
structure SandboxRunResult where
  response : Option Chars
  stdout : Option Chars
  stderr : Option Chars
deriving DecidableEq

/-- `run_request` (`crates/app/src/bin/sandbox_worker.rs` 62-117): the
four-way dispatch on `initialize` and `code`, substituting the default
query for an empty one. -/
def run_request {σ κ : Type} (O : ReplOps σ κ) (cfg : RlmCfg) (st : RlmState σ)
    (request : SandboxRunRequest κ) : RlmState σ × Except Chars SandboxRunResult :=
  let query := if request.query.isEmpty then DEFAULT_QUERY else request.query
  if request.init then
    match request.code with
    | some code =>
      let s := setup_context O st request.context (some query)
      match s.2 with
      | .error e => (s.1, .error e)
      | .ok _ =>
        match execute_code O s.1 code with
        | (st2, .error e) => (st2, .error e)
        | (st2, .ok result) => (st2, .ok ⟨none, some result.stdout, some result.stderr⟩)
    | none =>
      match completion O cfg st request.context (some query) with
      | (st1, .error e) => (st1, .error e)
      | (st1, .ok response) => (st1, .ok ⟨some response, none, none⟩)
  else
    match request.code with
    | some code =>
      match execute_code O st code with
      | (st1, .error e) => (st1, .error e)
      | (st1, .ok result) => (st1, .ok ⟨none, some result.stdout, some result.stderr⟩)
    | none =>
      match completion_with_existing O cfg st (some query) with
      | (st1, .error e) => (st1, .error e)
      | (st1, .ok response) => (st1, .ok ⟨some response, none, none⟩)

/-- `WorkerRequest` from `crates/app/src/protocol.rs` (the stdio parse layer
is out of scope; the worker is fed parsed requests). -/
inductive WorkerRequest (κ : Type) where
  | ping
  | run (request : SandboxRunRequest κ)
  | shutdown
deriving DecidableEq

/-- `WorkerResponse` from `crates/app/src/protocol.rs`. -/
inductive WorkerResponse where
  | pong
  | ack
  | runResult (result : SandboxRunResult)
  | error (message : Chars)
deriving DecidableEq

/-- The worker main loop (`crates/app/src/bin/sandbox_worker.rs` 19-59):
one response per request, `run_request` errors emitted as `error`
responses with the loop continuing, `shutdown` acknowledged and the loop
broken. -/
def worker_serve {σ κ : Type} (O : ReplOps σ κ) (cfg : RlmCfg) :
    RlmState σ → List (WorkerRequest κ) → List WorkerResponse × RlmState σ
  | st, [] => ([], st)
  | st, .ping :: rest =>
    let r := worker_serve O cfg st rest
    (.pong :: r.1, r.2)
  | st, .shutdown :: _ => ([.ack], st)
  | st, .run request :: rest =>
    match run_request O cfg st request with
    | (st1, .ok result) =>
      let r := worker_serve O cfg st1 rest
      (.runResult result :: r.1, r.2)
    | (st1, .error e) =>
      let r := worker_serve O cfg st1 rest
      (.error e :: r.1, r.2)

/-! ## The `llm_query` size guard (`crates/rlm/src/repl.rs` 50-54, 843-881) -/

/-- `MAX_SUBCALL_TOTAL_TOKENS_APPROX`. -/
def MAX_SUBCALL_TOTAL_TOKENS_APPROX : Nat := 120000

/-- `MAX_SUBCALL_MESSAGE_TOKENS_APPROX`. -/
def MAX_SUBCALL_MESSAGE_TOKENS_APPROX : Nat := 105000

/-- `MAX_SUBCALL_TOTAL_CHARS`. -/
def MAX_SUBCALL_TOTAL_CHARS : Nat := 480000

/-- `MAX_SUBCALL_MESSAGE_CHARS`. -/
def MAX_SUBCALL_MESSAGE_CHARS : Nat := 420000

/-- `estimate_tokens` (`crates/rlm/src/repl.rs` 879-881): Rust's
`char_count.div_ceil(4)`, the ceiling of `char_count / 4`. -/
def estimate_tokens (char_count : Nat) : Nat := (char_count + 3) / 4

/-- Rust `Iterator::max` on a list of naturals. -/
def listMaxNat : List Nat → Option Nat
  | [] => none
  | a :: rest =>
    match listMaxNat rest with
    | none => some a
    | some b => some (max a b)

/-- `validate_subcall_messages` (`crates/rlm/src/repl.rs` 843-877): the four
size checks in source order, each rejecting with its formatted message. -/
def validate_subcall_messages (messages : List Message) : Except Chars Unit :=
  let total_chars := (messages.map fun m => m.content.length).sum
  let total_tokens_approx := estimate_tokens total_chars
  if total_chars > MAX_SUBCALL_TOTAL_CHARS then
    .error ("sub-query too large (".toList ++ natChars total_chars ++ " chars > ".toList ++
      natChars MAX_SUBCALL_TOTAL_CHARS ++ "). Chunk the context before calling llm_query.".toList)
  else if total_tokens_approx > MAX_SUBCALL_TOTAL_TOKENS_APPROX then
    .error ("sub-query too large (~".toList ++ natChars total_tokens_approx ++ " tokens > ".toList ++
      natChars MAX_SUBCALL_TOTAL_TOKENS_APPROX ++ "). Chunk the context before calling llm_query.".toList)
  else
    match (listMaxNat (messages.map fun m => m.content.length)).filter
        (fun len => decide (len > MAX_SUBCALL_MESSAGE_CHARS)) with
    | some oversized =>
      .error ("single sub-query message too large (".toList ++ natChars oversized ++ " chars > ".toList ++
        natChars MAX_SUBCALL_MESSAGE_CHARS ++ "). Chunk the context before calling llm_query.".toList)
    | none =>
      match (listMaxNat (messages.map fun m => estimate_tokens m.content.length)).filter
          (fun toks => decide (toks > MAX_SUBCALL_MESSAGE_TOKENS_APPROX)) with
      | some oversized_tokens =>
        .error ("single sub-query message too large (~".toList ++ natChars oversized_tokens ++ " tokens > ".toList ++
          natChars MAX_SUBCALL_MESSAGE_TOKENS_APPROX ++ "). Chunk the context before calling llm_query.".toList)
      | none => .ok ()

/-! ## The import allowlist and exception capture (`crates/rlm/src/repl.rs`)

The safety shim is installed by running fixed Python snippets inside the
interpreter (`ReplEnv::initialize`, segments `safe_imports` etc.); the
decision logic of `__rlm_safe_import` is embedded below.  `ReplEnv::execute`
(488-542) runs the user code between a preamble that redirects
`sys.stdout`/`sys.stderr` into capture buffers and a postamble that
restores them; an exception from the user code is caught at the host side
and printed with `vm.print_exception` — which writes to the *current*
`sys.stderr`, i.e. into the capture buffer — after which `execute` still
returns `Ok(ReplResult { .. })`. -/

/-- `__rlm_allowed_modules` (`crates/rlm/src/repl.rs` 286-289). -/
def allowed_modules : List Chars :=
  ["json", "math", "statistics", "random", "re", "itertools", "functools",
   "collections", "datetime", "decimal", "fractions", "io", "sys", "time"].map String.toList

/-- Python `name.split('.')[0]`: the root module name. (Python's
`''.split('.')` is `['']`, so the empty name has the empty root.) -/
def rootModuleName (name : Chars) : Chars := (name.splitOn '.').headD []

/-- `__rlm_safe_import` (`crates/rlm/src/repl.rs` 291-295): block the
the import with an `ImportError` message when the root module is not
allowlisted, else delegate to the captured original `__import__`
(`importFn`, opaque). -/
def rlm_safe_import {ι : Type} (importFn : Chars → ι) (name : Chars) : Except Chars ι :=
  let root := rootModuleName name
  if root ∈ allowed_modules then .ok (importFn name)
  else .error ("Import of '".toList ++ root ++ "' is blocked".toList)

/-- The outcome of running `__rlm_exec(__rlm_code)` for one user execution
under the capture buffers: what the code wrote to the captured stdout and
stderr, the rendered text of an uncaught exception if one was raised (as
`vm.print_exception` prints it), and the collected locals. -/
structure PyRunOutcome where
  stdout : Chars
  stderr : Chars
  exc : Option Chars
  locals : List LocalValue
  locals_map : List (Chars × Chars)
deriving DecidableEq

/-- `ReplEnv::execute` (`crates/rlm/src/repl.rs` 488-542) for an abstract
interpreter `runUser`: the user code's exception, if any, is printed into
the captured stderr (the capture buffers are restored only in the
postamble), and the call still returns `Ok` with the captured streams. -/
def repl_env_execute {π : Type} (runUser : π → Chars → π × PyRunOutcome) (env : π)
    (code : Chars) : π × Except Chars ReplResult :=
  let r := runUser env code
  (r.1, .ok { stdout := r.2.stdout,
              stderr := r.2.stderr ++ (match r.2.exc with | some excText => excText | none => []),
              locals := r.2.locals,
              locals_map := r.2.locals_map })

/-- `ReplOps` whose `exec` is the exception-capturing `ReplEnv::execute`. -/
def pyReplOps {π κ : Type} (runUser : π → Chars → π × PyRunOutcome)
    (mkEnv : Option κ → Except Chars π) (getVar : π → Chars → Except Chars (Option Chars))
    (llm : List Message → Except Chars Chars) : ReplOps π κ :=
  { mkEnv := mkEnv, exec := repl_env_execute runUser, getVar := getVar, llm := llm }

/-! ## Ingress query extraction (`crates/app/src/main.rs` 361-384) -/

/-- The observation classes of a `serde_json::Value` message content that
`openai_message_text` distinguishes: a JSON string, JSON null, and any
other value carried with its serde rendering (`Value::to_string`). -/
inductive OpenAiContent where
  | str (text : Chars)
  | null
  | other (rendered : Chars)
deriving DecidableEq

/-- `OpenAiChatMessage` from `crates/app/src/main.rs`. -/
structure OpenAiChatMessage where
  role : Chars
  content : OpenAiContent
deriving DecidableEq

/-- `openai_message_text` (`crates/app/src/main.rs` 361-367). -/
def openai_message_text (m : OpenAiChatMessage) : Chars :=
  match m.content with
  | .str text => text
  | .null => []
  | .other rendered => rendered

/-- The reverse scan of `openai_query_from_messages`: the first message of
the (already reversed) list whose role is `user` and whose text is
non-empty. -/
def revFindUserText : List OpenAiChatMessage → Option Chars
  | [] => none
  | m :: rest =>
    if m.role == "user".toList then
      let content := openai_message_text m
      if !content.isEmpty then some content else revFindUserText rest
    else revFindUserText rest

/-- `openai_query_from_messages` (`crates/app/src/main.rs` 369-384): the
last non-empty user message; failing that, the *last* message when its
text is non-empty; failing that, the default query. -/
def openai_query_from_messages (messages : List OpenAiChatMessage) : Chars :=
  match revFindUserText messages.reverse with
  | some content => content
  | none =>
    match messages.getLast? with
    | some m =>
      let text := openai_message_text m
      if !text.isEmpty then text else DEFAULT_QUERY
    | none => DEFAULT_QUERY

/-- Specification-side description of the primary case: the text of the
last message whose role is `user` and whose text is non-empty. -/
def lastNonemptyUserText (messages : List OpenAiChatMessage) : Option Chars :=
  ((messages.filter fun m => m.role == "user".toList && !(openai_message_text m).isEmpty).getLast?).map
    openai_message_text

/-! ## The session manager (`crates/app/src/session.rs`)

The manager owns `actors : HashMap<String, ActorEntry>` (modelled as an
association list with unique keys), `idle_lru : VecDeque<String>` and
`idle_index : HashSet<String>` (modelled as a list used as a set).  Its
loop interleaves two kinds of atomic state changes: processing one
`SessionRequest` and draining one `ActorFinished` token; the batching of
drains (4096 before a request, 512 after) only schedules these atomic
steps, so traces are modelled as arbitrary interleavings of the two
events. -/

/-- `SessionActorState` from `crates/app/src/session.rs`. -/
inductive SessionActorState where
  | idle
  | busy
  | resetPending
deriving DecidableEq

/-- `ActorEntry` (the `sender` channel is modelled by the `sendOk` outcome
of each dispatch). -/
structure ActorEntry where
  pending : Nat
  state : SessionActorState
deriving DecidableEq

/-- The `actors` map as an association list. -/
abbrev ActorMap := List (String × ActorEntry)

/-- `HashMap::get`. -/
def lookupActor (actors : ActorMap) (sid : String) : Option ActorEntry :=
  (actors.find? fun p => p.1 == sid).map Prod.snd

/-- `HashMap::contains_key`. -/
def containsActor (actors : ActorMap) (sid : String) : Bool :=
  (actors.find? fun p => p.1 == sid).isSome

/-- `HashMap::remove` (under unique keys). -/
def removeActor (actors : ActorMap) (sid : String) : ActorMap :=
  actors.filter fun p => p.1 != sid

/-- `HashMap::get_mut` followed by a field update (under unique keys). -/
def updateActor (actors : ActorMap) (sid : String) (f : ActorEntry → ActorEntry) : ActorMap :=
  actors.map fun p => if p.1 == sid then (p.1, f p.2) else p

/-- The manager's mutable state. -/
structure MgrState where
  actors : ActorMap
  idle_lru : List String
  idle_index : List String
deriving DecidableEq

/-- The `while let Some(session_id) = idle_lru.pop_front()` loop of
`evict_oldest_idle_actor` (`crates/app/src/session.rs` 298-317), structural
on the deque: skip ids absent from the index (stale tombstones), skip and
deindex ids whose actor is missing or busy, and evict the first idle one. -/
def evictScan (actors : ActorMap) (idx : List String) :
    List String → Option String × ActorMap × List String × List String
  | [] => (none, actors, [], idx)
  | sid :: rest =>
    if sid ∈ idx then
      let idx' := idx.erase sid
      match lookupActor actors sid with
      | some entry =>
        if entry.pending == 0 then (some sid, removeActor actors sid, rest, idx')
        else evictScan actors idx' rest
      | none => evictScan actors idx' rest
    else evictScan actors idx rest

/-- `evict_oldest_idle_actor` (`crates/app/src/session.rs` 298-317),
returning the evicted id (if any) and the updated state. -/
def evict_oldest_idle_actor (st : MgrState) : Option String × MgrState :=
  match evictScan st.actors st.idle_index st.idle_lru with
  | (evicted, actors', lru', idx') => (evicted, ⟨actors', lru', idx'⟩)

/-- Fuelled `while actors.len() >= max_sessions` loop of
`evict_until_capacity`; every successful eviction consumes at least one
deque entry, so `idle_lru.length + 1` fuel always suffices (see
`evictUntilAux_fuel_irrel`). -/
def evictUntilAux (maxSessions : Nat) : Nat → MgrState → Bool × MgrState
  | 0, st => (st.actors.length < maxSessions, st)
  | fuel+1, st =>
    if st.actors.length < maxSessions then (true, st)
    else
      match evict_oldest_idle_actor st with
      | (none, st') => (false, st')
      | (some _, st') => evictUntilAux maxSessions fuel st'

/-- `evict_until_capacity` (`crates/app/src/session.rs` 255-267). -/
def evict_until_capacity (maxSessions : Nat) (st : MgrState) : Bool × MgrState :=
  evictUntilAux maxSessions (st.idle_lru.length + 1) st

/-- One drained `ActorFinished` token (`drain_finished_events`,
`crates/app/src/session.rs` 269-296): decrement the pending count
(saturating); at zero mark the actor idle and (re)index it, pushing it on
the deque only when newly indexed; otherwise mark it busy. -/
def drain_finished_one (st : MgrState) (sid : String) : MgrState :=
  match lookupActor st.actors sid with
  | none => st
  | some entry =>
    if entry.pending - 1 == 0 then
      let actors' := updateActor st.actors sid fun e => ⟨e.pending - 1, .idle⟩
      if sid ∈ st.idle_index then { st with actors := actors' }
      else ⟨actors', st.idle_lru ++ [sid], sid :: st.idle_index⟩
    else
      { st with actors := updateActor st.actors sid fun e => ⟨e.pending - 1, .busy⟩ }

/-- `SessionErrorKind` from `crates/app/src/session.rs`. -/
inductive SessionErrorKind where
  | overloaded
  | internal
deriving DecidableEq

/-- The dispatch tail of the manager loop (`crates/app/src/session.rs`
217-249), entered with the actor entry present: deindex the session, bump
its pending count, set its state from `reset`, and send to the actor; on a
send failure answer `Internal` and drop the actor. -/
def managerDispatch (st : MgrState) (sid : String) (reset : Bool) (sendOk : Bool) :
    MgrState × Option SessionErrorKind :=
  let st1 : MgrState :=
    { st with idle_index := st.idle_index.erase sid,
              actors := updateActor st.actors sid
                fun e => ⟨e.pending + 1, if reset then .resetPending else .busy⟩ }
  if sendOk then (st1, none)
  else ({ st1 with actors := removeActor st1.actors sid,
                   idle_index := st1.idle_index.erase sid }, some .internal)

/-- Processing one `SessionRequest` in `run_session_manager_loop`
(`crates/app/src/session.rs` 174-249).  For an unknown session id, first
evict down below the cap (`max_sessions.max(1)`); failure answers
`Overloaded` with no actor created; then spawn the actor (`spawnOk`: the
thread spawn outcome) and insert it with `pending = 0, Idle`; finally the
shared dispatch tail runs. -/
def process_session_request (max_sessions : Nat) (st : MgrState) (sid : String)
    (reset spawnOk sendOk : Bool) : MgrState × Option SessionErrorKind :=
  if containsActor st.actors sid then managerDispatch st sid reset sendOk
  else
    match evict_until_capacity (max max_sessions 1) st with
    | (false, st') => (st', some .overloaded)
    | (true, st') =>
      if spawnOk then
        managerDispatch { st' with actors := (sid, ⟨0, .idle⟩) :: st'.actors } sid reset sendOk
      else (st', some .internal)

/-- One atomic manager step: a request arrival or a drained finished token. -/
inductive MgrEvent where
  | request (sid : String) (reset spawnOk sendOk : Bool)
  | finished (sid : String)
deriving DecidableEq

/-- Apply one manager event. -/
def mgrStep (max_sessions : Nat) (st : MgrState) : MgrEvent → MgrState
  | .request sid reset spawnOk sendOk =>
    (process_session_request max_sessions st sid reset spawnOk sendOk).1
  | .finished sid => drain_finished_one st sid

/-- Run the manager from its initial empty state over an event trace. -/
def mgrRun (max_sessions : Nat) (events : List MgrEvent) : MgrState :=
  events.foldl (mgrStep max_sessions) ⟨[], [], []⟩

/-! ## The session actor (`run_actor_request`, `crates/app/src/session.rs` 379-426)

The actor owns `session : Option<(Box<dyn SandboxHandle>, bool)>`.  A
handle is a sandbox worker process; its observable content is the worker's
repl state (`RlmState`), and a handle freshly acquired from the pool is a
pre-warmed single-use worker in the `RlmRepl::new` state.  `handle.run`
forwards the request to the worker loop: a `run_result` response is `Ok`,
an `error` response or a transport failure is `Err` (`SandboxClient::run`,
`crates/app/src/client.rs`). -/

/-- `SessionError` from `crates/app/src/session.rs`. -/
structure SessionError where
  kind : SessionErrorKind
  message : Chars
deriving DecidableEq

/-- `SessionResponse` from `crates/app/src/session.rs`. -/
structure SessionResponse where
  response : Option Chars
  stdout : Option Chars
  stderr : Option Chars
deriving DecidableEq

/-- `ActorRequest` from `crates/app/src/session.rs`. -/
structure ActorRequest (κ : Type) where
  reset : Bool
  query : Chars
  context : Option κ
  code : Option Chars
deriving DecidableEq

deriving instance DecidableEq for Except

/-- The outcome of one actor turn: the reply sent on `respond_to`, the
actor's session slot afterwards, and the handles retired to the pool
broker (in retirement order, each with its initialized flag). -/
structure ActorTurnOut (σ : Type) where
  response : Except SessionError SessionResponse
  slot : Option (RlmState σ × Bool)
  retired : List (RlmState σ × Bool)
deriving DecidableEq

/-- The run tail of `run_actor_request` (`crates/app/src/session.rs`
395-425): build the `SandboxRunRequest` with `initialize = !initialized`,
run it on the worker; on success flip the initialized flag (when it was an
initializing run) and reply with the result; on failure retire the failing
handle, clear the slot and reply `Internal`. -/
def actorRunPart {σ κ : Type} (O : ReplOps σ κ) (cfg : RlmCfg) (request : ActorRequest κ)
    (retired0 : List (RlmState σ × Bool)) (w : RlmState σ) (initialized : Bool) :
    ActorTurnOut σ :=
  let initNow := !initialized
  match run_request O cfg w ⟨initNow, request.query, request.context, request.code⟩ with
  | (w', .ok result) =>
    { response := .ok ⟨result.response, result.stdout, result.stderr⟩,
      slot := some (w', if initNow then true else initialized),
      retired := retired0 }
  | (w', .error e) =>
    { response := .error ⟨.internal, e⟩,
      slot := none,
      retired := retired0 ++ [(w', initialized)] }

/-- `run_actor_request` (`crates/app/src/session.rs` 379-426): a reset turn
first retires the current handle; an empty slot acquires a fresh pooled
worker (`acquire` is the pool outcome); then the run tail executes. -/
def run_actor_request {σ κ : Type} (O : ReplOps σ κ) (cfg : RlmCfg)
    (acquire : Except Chars Unit) (request : ActorRequest κ)
    (slot : Option (RlmState σ × Bool)) : ActorTurnOut σ :=
  let slot0 := if request.reset then none else slot
  let retired0 := if request.reset then slot.toList else []
  match slot0 with
  | some s => actorRunPart O cfg request retired0 s.1 s.2
  | none =>
    match acquire with
    | .error e => { response := .error ⟨.internal, e⟩, slot := none, retired := retired0 }
    | .ok _ => actorRunPart O cfg request retired0 freshRlmState false

/-! ## The inline session worker (`crates/app/src/main.rs` 400-546)

`main.rs` wires its own single-threaded session worker
(`spawn_session_worker` / `handle_session_request_inner`) with a
`sessions : HashMap<String, SessionSandbox>` and an LRU
`session_order : VecDeque<String>`.  Handles are opaque (`η`) with a run
oracle `runH`; `acquire` is the outcome of the one possible
`pool.acquire()` call of the turn. -/

/-- `ReplResponse` from `crates/app/src/main.rs`. -/
structure ReplResponse where
  session_id : String
  response : Option Chars
  stdout : Option Chars
  stderr : Option Chars
deriving DecidableEq

/-- `SessionTask` from `crates/app/src/main.rs`. -/
structure SessionTask (κ : Type) where
  session_id : String
  reset : Bool
  query : Chars
  context : Option κ
  code : Option Chars
deriving DecidableEq

/-- The `sessions` map: id to `SessionSandbox { handle, initialized }`. -/
abbrev SessionMap (η : Type) := List (String × (η × Bool))

/-- `HashMap::get` on the sessions map. -/
def lookupSession {η : Type} (sessions : SessionMap η) (sid : String) : Option (η × Bool) :=
  (sessions.find? fun p => p.1 == sid).map Prod.snd

/-- `HashMap::contains_key` on the sessions map. -/
def containsSession {η : Type} (sessions : SessionMap η) (sid : String) : Bool :=
  (sessions.find? fun p => p.1 == sid).isSome

/-- `HashMap::remove` on the sessions map (under unique keys). -/
def removeSessionEntry {η : Type} (sessions : SessionMap η) (sid : String) : SessionMap η :=
  sessions.filter fun p => p.1 != sid

/-- In-place update of one session's handle and flag (under unique keys). -/
def updateSessionEntry {η : Type} (sessions : SessionMap η) (sid : String) (v : η × Bool) :
    SessionMap η :=
  sessions.map fun p => if p.1 == sid then (p.1, v) else p

/-- `touch_session` (`crates/app/src/main.rs` 400-405): move the id to the
back of the order deque. -/
def touch_session (order : List String) (sid : String) : List String :=
  order.erase sid ++ [sid]

/-- `remove_session` (`crates/app/src/main.rs` 407-411). -/
def remove_session (order : List String) (sid : String) : List String :=
  order.erase sid

/-- `enforce_max_sessions` (`crates/app/src/main.rs` 413-427): pop the
front of the order deque while it is over the cap, collecting the handles
of the sessions removed from the map. -/
def enforce_max_sessions {η : Type} (max_sessions : Nat) :
    SessionMap η → List String → SessionMap η × List String × List η
  | sessions, [] => (sessions, [], [])
  | sessions, front :: rest =>
    if rest.length + 1 > max_sessions then
      match lookupSession sessions front with
      | some s =>
        let r := enforce_max_sessions max_sessions (removeSessionEntry sessions front) rest
        (r.1, r.2.1, s.1 :: r.2.2)
      | none => enforce_max_sessions max_sessions sessions rest
    else (sessions, front :: rest, [])

/-- The tail of `handle_session_request_inner` after the session entry
exists (`crates/app/src/main.rs` 502-545): touch the LRU, enforce the cap
(retiring evicted handles), run the request with
`initialize = !initialized`; on success mark initialized and reply; on a
run error remove the session entry, retire its handle and return the
error. -/
def sessionRunTail {η κ : Type} (runH : η → SandboxRunRequest κ → η × Except Chars SandboxRunResult)
    (max_sessions : Nat) (sessions1 : SessionMap η) (order0 : List String) (retired0 : List η)
    (task : SessionTask κ) : Except Chars ReplResponse × SessionMap η × List String × List η :=
  let order1 := touch_session order0 task.session_id
  let r := enforce_max_sessions max_sessions sessions1 order1
  let retired1 := retired0 ++ r.2.2
  match lookupSession r.1 task.session_id with
  | none => (.error "session init failed".toList, r.1, r.2.1, retired1)
  | some s =>
    let initNow := !s.2
    let run := runH s.1 ⟨initNow, task.query, task.context, task.code⟩
    match run.2 with
    | .ok result =>
      let sessions3 := updateSessionEntry r.1 task.session_id
        (run.1, if initNow then true else s.2)
      (.ok ⟨task.session_id, result.response, result.stdout, result.stderr⟩,
        sessions3, r.2.1, retired1)
    | .error e =>
      (.error e, removeSessionEntry r.1 task.session_id,
        remove_session r.2.1 task.session_id, retired1 ++ [run.1])

/-- `handle_session_request_inner` (`crates/app/src/main.rs` 471-546): a
reset first removes and retires the session's entry; a missing entry
acquires a fresh handle (propagating acquire errors) and inserts it
uninitialized; then the run tail executes. -/
def handle_session_request_inner {η κ : Type} (max_sessions : Nat)
    (acquire : Except Chars η)
    (runH : η → SandboxRunRequest κ → η × Except Chars SandboxRunResult)
    (sessions : SessionMap η) (order : List String) (task : SessionTask κ) :
    Except Chars ReplResponse × SessionMap η × List String × List η :=
  let retired0 := if task.reset then ((lookupSession sessions task.session_id).map Prod.fst).toList else []
  let sessions0 := if task.reset then removeSessionEntry sessions task.session_id else sessions
  let order0 := if task.reset then remove_session order task.session_id else order
  if !containsSession sessions0 task.session_id then
    match acquire with
    | .error e => (.error e, sessions0, order0, retired0)
    | .ok handle =>
      sessionRunTail runH max_sessions ((task.session_id, (handle, false)) :: sessions0)
        order0 retired0 task
  else sessionRunTail runH max_sessions sessions0 order0 retired0 task

/-! ## Specification-side definitions used by the claims -/

/-- The truncation the history append actually performs: none when
recursion is disabled; otherwise cut to 100 000 characters and append an
ellipsis when the output exceeds the limit. -/
def truncatedOutput (disable_recursive : Bool) (out : Chars) : Chars :=
  if disable_recursive then out
  else if out.length > 100000 then out.take 100000 ++ "...".toList else out

/-- Closed form of the per-block history append: one user message of the
documented shape per extracted block, threading the interpreter state. -/
def execMessagesSpec {σ κ : Type} (O : ReplOps σ κ) (disable_recursive : Bool) :
    List Chars → σ → List Message × σ
  | [], env => ([], env)
  | code :: more, env =>
    let r := execute_code_util O env code
    let rest := execMessagesSpec O disable_recursive more r.1
    (Message.mkUser ("Code executed:\n```python\n".toList ++ code ++
        "\n```\n\nREPL output:\n".toList ++ truncatedOutput disable_recursive r.2) :: rest.1,
     rest.2)

/-- No session in the idle structures is evictable: every id on the deque
that is still indexed belongs to an actor with work pending. -/
def noIdleEvictable (st : MgrState) : Prop :=
  ∀ sid ∈ st.idle_lru, sid ∈ st.idle_index →
    ∀ e, lookupActor st.actors sid = some e → e.pending ≠ 0

/-- A trivial concrete instantiation of the interpreter/LLM operations,
used to exercise the theorems on closed inputs: every execution prints
`out`, and the model always answers `FINAL(done)`. -/
def witnessOps : ReplOps Unit Unit :=
  ⟨fun _ => .ok (), fun _ _ => ((), .ok ⟨"out".toList, [], [], []⟩), fun _ _ => .ok none,
   fun _ => .ok "FINAL(done)".toList⟩

/-! ## Lemmas about the final-answer scanner -/

/-- With no anchor pending and no newline ahead, the multiline scanner
finds nothing. -/
theorem scanMarker_no_newline (m l : Chars) (h : '\n' ∉ l) :
    scanMarker m l false = none := by
  induction l with
  | nil => rfl
  | cons c rest ih =>
    have hc : (c == '\n') = false := by
      simp only [beq_eq_false_iff_ne]
      intro hcEq
      exact h (by simp [hcEq])
    have hrest : '\n' ∉ rest := fun hm => h (List.mem_cons_of_mem _ hm)
    simp only [scanMarker, if_neg, Bool.false_eq_true, reduceIte]
    rw [hc]
    exact ih hrest

/-- Splitting `x ++ [')']` at the first `)` captures exactly `x` when `x`
is free of `)`. -/
theorem splitAtFirst_paren (x : Chars) (h : ')' ∉ x) :
    splitAtFirst ')' (x ++ [')']) = some (x, []) := by
  induction x with
  | nil => simp [splitAtFirst]
  | cons c rest ih =>
    have hc : (c == ')') = false := by
      simp only [beq_eq_false_iff_ne]
      intro hcEq
      exact h (by simp [hcEq])
    have hrest : ')' ∉ rest := fun hm => h (List.mem_cons_of_mem _ hm)
    simp [splitAtFirst, hc, ih hrest]

/-- A list is a `isPrefixOf`-prefix of itself extended by anything. -/
theorem isPrefixOf_append_self (m l : Chars) : m.isPrefixOf (m ++ l) = true := by
  induction m with
  | nil => simp [List.isPrefixOf]
  | cons c rest ih => simp [List.isPrefixOf, ih]

/-- C2: the `FINAL_VAR` regex is tried before the `FINAL` regex, so any
`FINAL_VAR` match (anywhere in the text, even after an earlier `FINAL`
marker) determines the result; and a response that is exactly `FINAL(x)`
with `x` free of `)` and on a single line yields the captured `x`
stripped of surrounding whitespace. -/
theorem final_answer_extraction :
    (∀ (text cap : Chars),
        scanMarker FINAL_VAR_MARKER text true = some cap →
        find_final_answer text = some (.finalVar, rust_trim cap)) ∧
    (∀ (x : Chars), ')' ∉ x → '\n' ∉ x →
        find_final_answer (FINAL_MARKER ++ x ++ [')']) = some (.final, rust_trim x)) := by
  constructor
  · intro text cap h
    simp [find_final_answer, h]
  · intro x hp hn
    have hT : FINAL_MARKER ++ x ++ [')'] = 'F':: 'I':: 'N':: 'A':: 'L':: '('::(x ++ [')']) := by
      simp [FINAL_MARKER]
    have hn' : ('\n' : Char) ∉ ('I':: 'N':: 'A':: 'L':: '('::(x ++ [')']) : Chars) := by
      intro hmem
      simp only [List.mem_cons, List.mem_append, List.mem_singleton] at hmem
      rcases hmem with h|h|h|h|h|h|h
      · exact absurd h (by decide)
      · exact absurd h (by decide)
      · exact absurd h (by decide)
      · exact absurd h (by decide)
      · exact absurd h (by decide)
      · exact hn h
      · exact absurd h (by decide)
    have hvar : scanMarker FINAL_VAR_MARKER ('F':: 'I':: 'N':: 'A':: 'L':: '('::(x ++ [')'])) true = none := by
      have h1 : scanMarker FINAL_VAR_MARKER ('F':: 'I':: 'N':: 'A':: 'L':: '('::(x ++ [')'])) true
          = scanMarker FINAL_VAR_MARKER ('I':: 'N':: 'A':: 'L':: '('::(x ++ [')'])) false := rfl
      rw [h1]
      exact scanMarker_no_newline _ _ hn'
    have hdw : List.dropWhile wspChar ('F':: 'I':: 'N':: 'A':: 'L':: '('::(x ++ [')']))
        = 'F':: 'I':: 'N':: 'A':: 'L':: '('::(x ++ [')']) := by
      simp [List.dropWhile_cons, show wspChar 'F' = false from by decide]
    have hpre : FINAL_MARKER.isPrefixOf ('F':: 'I':: 'N':: 'A':: 'L':: '('::(x ++ [')'])) = true := by
      rw [show ('F':: 'I':: 'N':: 'A':: 'L':: '('::(x ++ [')']) : Chars) = FINAL_MARKER ++ (x ++ [')'])
        from by simp [FINAL_MARKER]]
      exact isPrefixOf_append_self _ _
    have hdrop : List.drop FINAL_MARKER.length ('F':: 'I':: 'N':: 'A':: 'L':: '('::(x ++ [')']))
        = x ++ [')'] := rfl
    have hanch2 : anchoredCapture FINAL_MARKER ('F':: 'I':: 'N':: 'A':: 'L':: '('::(x ++ [')'])) = some x := by
      simp only [anchoredCapture]
      rw [hdw, hpre]
      simp only [if_true]
      rw [hdrop, splitAtFirst_paren x hp]
      rfl
    have hfin : scanMarker FINAL_MARKER ('F':: 'I':: 'N':: 'A':: 'L':: '('::(x ++ [')'])) true = some x := by
      simp only [scanMarker, if_true]
      rw [hanch2]
    rw [hT]
    simp [find_final_answer, hvar, hfin]

/-- Witness for C2 at concrete inputs: a `FINAL_VAR` marker on the second
line beats the `FINAL` marker on the first line, and `FINAL(x 42)` round
trips to `x 42`. -/
theorem final_answer_extraction_witness :
    find_final_answer "FINAL(early)\nFINAL_VAR(v)".toList = some (.finalVar, "v".toList) ∧
    find_final_answer (FINAL_MARKER ++ "x 42".toList ++ [')']) = some (.final, "x 42".toList) := by
  constructor
  · exact final_answer_extraction.1 "FINAL(early)\nFINAL_VAR(v)".toList "v".toList (by decide)
  · exact final_answer_extraction.2 "x 42".toList (by decide) (by decide)

/-- C9 (amended): for a response with at least one fenced `repl` block,
each extracted block is executed in sequence against the interpreter and,
for each, a user message of exactly the form
`"Code executed:\n```python\n{code}\n```\n\nREPL output:\n{output}"` is
appended, where `output` is the formatted execution result — truncated to
100 000 characters *with an ellipsis `...` appended* when recursion is
enabled and it exceeds the limit, and untruncated when recursion is
disabled. -/
theorem repl_output_history_append {σ κ : Type} (O : ReplOps σ κ) (response : Chars)
    (messages : List Message) (env : σ) (disable_recursive : Bool)
    (hblocks : find_code_blocks response ≠ [])
    (hbound : ∀ (env' : σ) (code : Chars), (execute_code_util O env' code).2.length ≤ USIZE_MAX) :
    process_code_execution O response messages env disable_recursive =
      (messages ++ (execMessagesSpec O disable_recursive (find_code_blocks response) env).1,
       (execMessagesSpec O disable_recursive (find_code_blocks response) env).2) := by
  clear hblocks
  unfold process_code_execution
  generalize find_code_blocks response = blocks
  induction blocks generalizing messages env with
  | nil => simp [processBlocks, execMessagesSpec]
  | cons code more ih =>
    have hout : add_execution_result_to_messages messages code (execute_code_util O env code).2
        (if disable_recursive then USIZE_MAX else 100000)
        = messages ++ [Message.mkUser ("Code executed:\n```python\n".toList ++ code ++
            "\n```\n\nREPL output:\n".toList ++
            truncatedOutput disable_recursive (execute_code_util O env code).2)] := by
      unfold add_execution_result_to_messages truncatedOutput
      cases disable_recursive with
      | false => simp
      | true =>
        simp only [if_true]
        rw [if_neg (Nat.not_lt.mpr (hbound env code))]
    simp only [processBlocks, execMessagesSpec]
    rw [hout, ih]
    simp

/-- C9 counterexample: with recursion enabled, a 100 001-character
execution result is appended as its 100 000-character cut *plus* the
three-character ellipsis, so the message's output portion has 100 003
characters — more than the 100 000 the claim states. -/
theorem repl_output_history_append_counterexample :
    add_execution_result_to_messages [] [] (List.replicate 100001 'a') 100000
      = [Message.mkUser ("Code executed:\n```python\n".toList ++ "\n```\n\nREPL output:\n".toList
          ++ (List.take 100000 (List.replicate 100001 'a') ++ "...".toList))] ∧
    (List.take 100000 (List.replicate 100001 'a') ++ "...".toList).length = 100003 := by
  have general : ∀ (r : Chars), r.length > 100000 →
      add_execution_result_to_messages [] [] r 100000
        = [Message.mkUser ("Code executed:\n```python\n".toList ++ "\n```\n\nREPL output:\n".toList
            ++ (List.take 100000 r ++ "...".toList))] := by
    intro r hr
    unfold add_execution_result_to_messages
    rw [if_pos hr]
    rfl
  refine ⟨general _ (by rw [List.length_replicate]; omega), ?_⟩
  rw [List.length_append, List.length_take, List.length_replicate,
    show ("...".toList : Chars).length = 3 from rfl,
    show min 100000 100001 = 100000 from rfl]

/-- Witness for C9 at a concrete interpreter: an ordinary `repl` block is
executed and appended in the documented message shape; and a
whitespace-body block — matched by the backtracking `\s*` with a
trimmed-empty capture — is likewise executed and appended. -/
theorem repl_output_history_append_witness :
    (process_code_execution witnessOps "```repl\nx = 1\n```".toList [] () false
      = ([Message.mkUser "Code executed:\n```python\nx = 1\n```\n\nREPL output:\n\nout".toList],
         ())) ∧
    (process_code_execution witnessOps "```repl\n  \n```".toList [] () false
      = ([Message.mkUser "Code executed:\n```python\n\n```\n\nREPL output:\n\nout".toList],
         ())) := by
  constructor
  · have h := repl_output_history_append witnessOps "```repl\nx = 1\n```".toList [] () false
      (by decide)
      (fun env' code => by
        rw [show (execute_code_util witnessOps env' code).2 = "\nout".toList from rfl]
        decide)
    exact h.trans (by decide)
  · have h := repl_output_history_append witnessOps "```repl\n  \n```".toList [] () false
      (by decide)
      (fun env' code => by
        rw [show (execute_code_util witnessOps env' code).2 = "\nout".toList from rfl]
        decide)
    exact h.trans (by decide)

/-! ## Lemmas about `listMaxNat` (for the size guard) -/

/-- A computed maximum is a member and an upper bound. -/
theorem listMaxNat_spec (l : List Nat) (v : Nat) (h : listMaxNat l = some v) :
    v ∈ l ∧ ∀ x ∈ l, x ≤ v := by
  induction l generalizing v with
  | nil => cases h
  | cons a rest ih =>
    simp only [listMaxNat] at h
    cases hrest : listMaxNat rest with
    | none =>
      rw [hrest] at h
      cases h
      refine ⟨List.mem_cons_self _ _, ?_⟩
      intro x hx
      rcases List.mem_cons.mp hx with h1 | h1
      · omega
      · cases rest with
        | nil => cases h1
        | cons b rs =>
          simp only [listMaxNat] at hrest
          cases hlm : listMaxNat rs <;> rw [hlm] at hrest <;> simp at hrest
    | some b =>
      rw [hrest] at h
      cases h
      obtain ⟨hb_mem, hb_le⟩ := ih b hrest
      constructor
      · rcases Nat.le_total a b with hle | hle
        · rw [Nat.max_eq_right hle]
          exact List.mem_cons_of_mem _ hb_mem
        · rw [Nat.max_eq_left hle]
          exact List.mem_cons_self _ _
      · intro x hx
        rcases List.mem_cons.mp hx with h1 | h1
        · subst h1
          exact Nat.le_max_left _ _
        · exact le_trans (hb_le x h1) (Nat.le_max_right _ _)

/-- A member above a bound forces the maximum above the bound. -/
theorem listMaxNat_exists_gt (l : List Nat) (k x : Nat) (hx : x ∈ l) (hxk : k < x) :
    ∃ v, listMaxNat l = some v ∧ k < v := by
  cases l with
  | nil => cases hx
  | cons a rest =>
    obtain ⟨v, hv⟩ : ∃ v, listMaxNat (a :: rest) = some v := by
      cases h' : listMaxNat rest with
      | none => exact ⟨a, by simp [listMaxNat, h']⟩
      | some b => exact ⟨max a b, by simp [listMaxNat, h']⟩
    obtain ⟨_, hub⟩ := listMaxNat_spec _ _ hv
    exact ⟨v, hv, lt_of_lt_of_le hxk (hub x hx)⟩

/-- C5: the sub-call size guard rejects exactly when the total content
length exceeds 480 000 characters or some single message exceeds 420 000
characters; and the approximate-token thresholds (ceil of the character
count over 4, against 120 000 and 105 000) are exactly equivalent to the
character thresholds, so the token checks never reject an input the
character checks accept. -/
theorem llm_query_size_guard :
    (∀ (messages : List Message),
        (∃ e, validate_subcall_messages messages = .error e) ↔
          ((messages.map fun m => m.content.length).sum > MAX_SUBCALL_TOTAL_CHARS ∨
            ∃ m ∈ messages, m.content.length > MAX_SUBCALL_MESSAGE_CHARS)) ∧
    (∀ n, estimate_tokens n > MAX_SUBCALL_TOTAL_TOKENS_APPROX ↔ n > MAX_SUBCALL_TOTAL_CHARS) ∧
    (∀ n, estimate_tokens n > MAX_SUBCALL_MESSAGE_TOKENS_APPROX ↔ n > MAX_SUBCALL_MESSAGE_CHARS) := by
  have harith1 : ∀ n, estimate_tokens n > MAX_SUBCALL_TOTAL_TOKENS_APPROX ↔ n > MAX_SUBCALL_TOTAL_CHARS := by
    intro n
    unfold estimate_tokens MAX_SUBCALL_TOTAL_TOKENS_APPROX MAX_SUBCALL_TOTAL_CHARS
    omega
  have harith2 : ∀ n, estimate_tokens n > MAX_SUBCALL_MESSAGE_TOKENS_APPROX ↔ n > MAX_SUBCALL_MESSAGE_CHARS := by
    intro n
    unfold estimate_tokens MAX_SUBCALL_MESSAGE_TOKENS_APPROX MAX_SUBCALL_MESSAGE_CHARS
    omega
  refine ⟨?_, harith1, harith2⟩
  intro messages
  simp only [validate_subcall_messages]
  by_cases h1 : (messages.map fun m => m.content.length).sum > MAX_SUBCALL_TOTAL_CHARS
  · rw [if_pos h1]
    simp [h1]
  · rw [if_neg h1, if_neg (fun hc => h1 ((harith1 _).mp hc))]
    cases hmaxc : listMaxNat (messages.map fun m => m.content.length) with
    | none =>
      have hempty : messages = [] := by
        cases messages with
        | nil => rfl
        | cons m ms =>
          simp only [List.map_cons, listMaxNat] at hmaxc
          cases hlm : listMaxNat (List.map (fun x => x.content.length) ms) <;>
            rw [hlm] at hmaxc <;> simp at hmaxc
      subst hempty
      simp [Option.filter, listMaxNat]
    | some v =>
      obtain ⟨hv_mem, hv_ub⟩ := listMaxNat_spec _ _ hmaxc
      by_cases h2 : v > MAX_SUBCALL_MESSAGE_CHARS
      · rw [show Option.filter (fun len => decide (len > MAX_SUBCALL_MESSAGE_CHARS)) (some v) = some v from by
          simp [Option.filter, h2]]
        obtain ⟨m, hm_mem, hm_len⟩ := List.mem_map.mp hv_mem
        constructor
        · intro _
          exact Or.inr ⟨m, hm_mem, by omega⟩
        · intro _
          exact ⟨_, rfl⟩
      · have hnone : ∀ m ∈ messages, ¬ m.content.length > MAX_SUBCALL_MESSAGE_CHARS := by
          intro m hm hgt
          exact h2 (lt_of_lt_of_le hgt (hv_ub _ (List.mem_map.mpr ⟨m, hm, rfl⟩)))
        rw [show Option.filter (fun len => decide (len > MAX_SUBCALL_MESSAGE_CHARS)) (some v) = none from by
          simp [Option.filter, h2]]
        have htok : ∀ w, listMaxNat (messages.map fun m => estimate_tokens m.content.length) = some w →
            ¬ w > MAX_SUBCALL_MESSAGE_TOKENS_APPROX := by
          intro w hw hgt
          obtain ⟨hw_mem, _⟩ := listMaxNat_spec _ _ hw
          obtain ⟨m, hm_mem, hm_tok⟩ := List.mem_map.mp hw_mem
          have : m.content.length > MAX_SUBCALL_MESSAGE_CHARS := by
            apply (harith2 m.content.length).mp
            rw [hm_tok]
            exact hgt
          exact hnone m hm_mem this
        cases hmaxt : listMaxNat (messages.map fun m => estimate_tokens m.content.length) with
        | none =>
          simp only [Option.filter]
          constructor
          · rintro ⟨e, he⟩
            cases he
          · rintro (hA | ⟨m, hm, hlen⟩)
            · exact absurd hA h1
            · exact absurd hlen (hnone m hm)
        | some w =>
          rw [show Option.filter (fun toks => decide (toks > MAX_SUBCALL_MESSAGE_TOKENS_APPROX)) (some w) = none from by
            simp [Option.filter, htok w hmaxt]]
          constructor
          · rintro ⟨e, he⟩
            cases he
          · rintro (hA | ⟨m, hm, hlen⟩)
            · exact absurd hA h1
            · exact absurd hlen (hnone m hm)

/-- C6: the sandbox replaces `__import__` by a wrapper that raises an
`ImportError` exactly for names whose root module (the text before the
first `.`) is outside the fourteen-module allowlist, and delegates to the
original import for every allowlisted root; and an exception raised by
user code is printed into the captured stderr while `execute` still
succeeds, so the worker answers the Run request with a `run_result`
response, its repl state advanced normally. -/
theorem import_allowlist_closure :
    (∀ {ι : Type} (importFn : Chars → ι) (name : Chars),
        rootModuleName name ∉ allowed_modules →
        rlm_safe_import importFn name
          = .error ("Import of '".toList ++ rootModuleName name ++ "' is blocked".toList)) ∧
    (∀ {ι : Type} (importFn : Chars → ι) (name : Chars),
        rootModuleName name ∈ allowed_modules →
        rlm_safe_import importFn name = .ok (importFn name)) ∧
    (∀ {π κ : Type} (runUser : π → Chars → π × PyRunOutcome)
        (mkEnv : Option κ → Except Chars π) (getVar : π → Chars → Except Chars (Option Chars))
        (llm : List Message → Except Chars Chars) (cfg : RlmCfg) (st : RlmState π)
        (env env2 : π) (code q : Chars) (ctx : Option κ) (out : PyRunOutcome) (excText : Chars),
        st.repl_env = some env →
        runUser env code = (env2, out) →
        out.exc = some excText →
        worker_serve (pyReplOps runUser mkEnv getVar llm) cfg st
            [.run ⟨false, q, ctx, some code⟩]
          = ([.runResult ⟨none, some out.stdout, some (out.stderr ++ excText)⟩],
             { st with repl_env := some env2 })) := by
  refine ⟨?_, ?_, ?_⟩
  · intro ι importFn name h
    unfold rlm_safe_import
    rw [if_neg h]
  · intro ι importFn name h
    unfold rlm_safe_import
    rw [if_pos h]
  · intro π κ runUser mkEnv getVar llm cfg st env env2 code q ctx out excText henv hrun hexc
    have hexec : execute_code (pyReplOps runUser mkEnv getVar llm) st code
        = ({ st with repl_env := some env2 },
           .ok { stdout := out.stdout, stderr := out.stderr ++ excText,
                 locals := out.locals, locals_map := out.locals_map }) := by
      unfold execute_code
      rw [henv]
      show (let r := (pyReplOps runUser mkEnv getVar llm).exec env code
            ({ st with repl_env := some r.1 }, r.2)) = _
      simp only [pyReplOps, repl_env_execute, hrun, hexc]
    simp [worker_serve, run_request, hexec]

/-- Witness for C6 at concrete inputs: `os` is blocked, `json.tool`
passes, and an `ImportError` raised inside the sandbox ends up in the
captured stderr of a successful `run_result`. -/
theorem import_allowlist_closure_witness :
    rlm_safe_import (fun n => n) "os.path".toList = .error "Import of 'os' is blocked".toList ∧
    rlm_safe_import (fun n => n) "json.tool".toList = .ok "json.tool".toList ∧
    worker_serve
        (pyReplOps (fun (_ : Unit) (_ : Chars) =>
            ((), ⟨[], [], some "ImportError: Import of 'os' is blocked".toList, [], []⟩))
          (fun (_ : Option Unit) => .ok ()) (fun _ _ => .ok none) (fun _ => .ok []))
        ⟨2, false⟩ ⟨[], some (), none⟩ [.run ⟨false, [], none, some "import os".toList⟩]
      = ([.runResult ⟨none, some [], some "ImportError: Import of 'os' is blocked".toList⟩],
         ⟨[], some (), none⟩) := by
  refine ⟨?_, ?_, ?_⟩
  · exact import_allowlist_closure.1 (fun n => n) "os.path".toList (by decide)
  · exact import_allowlist_closure.2.1 (fun n => n) "json.tool".toList (by decide)
  · have h := import_allowlist_closure.2.2
      (fun (_ : Unit) (_ : Chars) =>
        ((), ⟨[], [], some "ImportError: Import of 'os' is blocked".toList, [], []⟩))
      (fun (_ : Option Unit) => .ok ()) (fun _ _ => .ok none) (fun _ => .ok [])
      ⟨2, false⟩ ⟨[], some (), none⟩ () () "import os".toList [] none
      ⟨[], [], some "ImportError: Import of 'os' is blocked".toList, [], []⟩
      "ImportError: Import of 'os' is blocked".toList rfl rfl rfl
    exact h.trans (by decide)

/-- C10: a worker whose stream of Run requests begins with one carrying
`initialize = false` (with or without code) answers it with an error whose
message is `repl env not initialized`, creates or modifies no interpreter
state (the remaining requests are served from the untouched fresh state),
and keeps serving the rest of the stream. -/
theorem uninitialized_run_rejected {σ κ : Type} (O : ReplOps σ κ) (cfg : RlmCfg)
    (request : SandboxRunRequest κ) (rest : List (WorkerRequest κ))
    (hinit : request.init = false) :
    worker_serve O cfg freshRlmState (.run request :: rest)
      = (.error "repl env not initialized".toList :: (worker_serve O cfg freshRlmState rest).1,
         (worker_serve O cfg freshRlmState rest).2) := by
  obtain ⟨i, q, ctx, code⟩ := request
  simp only at hinit
  subst hinit
  have hrr : run_request O cfg freshRlmState ⟨false, q, ctx, code⟩
      = (freshRlmState, .error "repl env not initialized".toList) := by
    cases code with
    | some c => simp [run_request, execute_code, freshRlmState]
    | none => simp [run_request, completion_with_existing, freshRlmState]
  simp [worker_serve, hrr]

/-- Witness for C10: a fresh worker rejects an uninitialized Run and still
answers the following ping from the unchanged fresh state. -/
theorem uninitialized_run_rejected_witness :
    worker_serve witnessOps ⟨2, false⟩ freshRlmState
        [.run ⟨false, [], none, some "x".toList⟩, .ping]
      = ([.error "repl env not initialized".toList, .pong], freshRlmState) := by
  have h := uninitialized_run_rejected witnessOps ⟨2, false⟩
    ⟨false, [], none, some "x".toList⟩ [.ping] rfl
  exact h.trans (by decide)

/-- C1: the worker's Run dispatch. (1) `initialize` with code: the
interpreter context is rebuilt and the code then executed against the new
environment; the result sets stdout/stderr and leaves the response
absent. (2) `initialize` without code: a full completion loop runs on the
rebuilt environment with the query (the default query substituted for an
empty one); only the response is set. (3) no `initialize`, code present:
the code runs against the existing environment; stdout/stderr set.
(4) no `initialize`, no code: the completion loop resumes with the
conversation reset to the system prompt while the existing interpreter
environment is preserved; only the response is set. -/
theorem worker_run_dispatch :
    (∀ {σ κ : Type} (O : ReplOps σ κ) (cfg : RlmCfg) (st : RlmState σ) (q : Chars)
        (ctx : Option κ) (code : Chars) (e0 e1 : σ) (r : ReplResult),
        O.mkEnv ctx = .ok e0 →
        O.exec e0 code = (e1, .ok r) →
        run_request O cfg st ⟨true, q, ctx, some code⟩
          = (⟨reset_messages_to_system_prompt st.messages, some e1,
              some (if q.isEmpty then DEFAULT_QUERY else q)⟩,
             .ok ⟨none, some r.stdout, some r.stderr⟩)) ∧
    (∀ {σ κ : Type} (O : ReplOps σ κ) (cfg : RlmCfg) (st : RlmState σ) (q : Chars)
        (ctx : Option κ) (e0 : σ),
        O.mkEnv ctx = .ok e0 →
        run_request O cfg st ⟨true, q, ctx, none⟩
          = ((run_completion_loop O cfg
                ⟨reset_messages_to_system_prompt st.messages, some e0,
                 some (if q.isEmpty then DEFAULT_QUERY else q)⟩
                (if q.isEmpty then DEFAULT_QUERY else q)).1,
             (run_completion_loop O cfg
                ⟨reset_messages_to_system_prompt st.messages, some e0,
                 some (if q.isEmpty then DEFAULT_QUERY else q)⟩
                (if q.isEmpty then DEFAULT_QUERY else q)).2.map
               fun resp => ⟨some resp, none, none⟩)) ∧
    (∀ {σ κ : Type} (O : ReplOps σ κ) (cfg : RlmCfg) (st : RlmState σ) (q : Chars)
        (ctx : Option κ) (code : Chars) (env env' : σ) (r : ReplResult),
        st.repl_env = some env →
        O.exec env code = (env', .ok r) →
        run_request O cfg st ⟨false, q, ctx, some code⟩
          = ({ st with repl_env := some env' }, .ok ⟨none, some r.stdout, some r.stderr⟩)) ∧
    (∀ {σ κ : Type} (O : ReplOps σ κ) (cfg : RlmCfg) (st : RlmState σ) (q : Chars)
        (ctx : Option κ) (env : σ),
        st.repl_env = some env →
        run_request O cfg st ⟨false, q, ctx, none⟩
          = ((run_completion_loop O cfg
                ⟨reset_messages_to_system_prompt st.messages, some env,
                 some (if q.isEmpty then DEFAULT_QUERY else q)⟩
                (if q.isEmpty then DEFAULT_QUERY else q)).1,
             (run_completion_loop O cfg
                ⟨reset_messages_to_system_prompt st.messages, some env,
                 some (if q.isEmpty then DEFAULT_QUERY else q)⟩
                (if q.isEmpty then DEFAULT_QUERY else q)).2.map
               fun resp => ⟨some resp, none, none⟩)) := by
  refine ⟨?_, ?_, ?_, ?_⟩
  · intro σ κ O cfg st q ctx code e0 e1 r hmk hexec
    simp [run_request, setup_context, hmk, execute_code, hexec]
  · intro σ κ O cfg st q ctx e0 hmk
    simp only [run_request, completion, setup_context, hmk]
    rcases hL : run_completion_loop O cfg
        ⟨reset_messages_to_system_prompt st.messages, some e0,
         some (if q.isEmpty then DEFAULT_QUERY else q)⟩
        (if q.isEmpty then DEFAULT_QUERY else q) with ⟨stL, resL⟩
    simp only [Option.getD]
    rw [hL]
    cases resL <;> simp [Except.map]
  · intro σ κ O cfg st q ctx code env env' r henv hexec
    simp [run_request, execute_code, henv, hexec]
  · intro σ κ O cfg st q ctx env henv
    obtain ⟨ms, re, qu⟩ := st
    rw [show (⟨ms, re, qu⟩ : RlmState σ).repl_env = re from rfl] at henv
    subst henv
    simp only [run_request, completion_with_existing, Option.isNone_some,
      Bool.false_eq_true, if_false, Option.getD]
    rcases hL : run_completion_loop O cfg
        ⟨reset_messages_to_system_prompt ms, some env,
         some (if q.isEmpty then DEFAULT_QUERY else q)⟩
        (if q.isEmpty then DEFAULT_QUERY else q) with ⟨stL, resL⟩
    cases resL <;> simp [Except.map]

/-- Witness for C1: each of the four dispatch branches at a concrete
worker (observed through the returned `SandboxRunResult`). -/
theorem worker_run_dispatch_witness :
    (run_request witnessOps ⟨1, false⟩ freshRlmState ⟨true, [], none, some "c".toList⟩).2
      = .ok ⟨none, some "out".toList, some []⟩ ∧
    (run_request witnessOps ⟨1, false⟩ freshRlmState ⟨true, [], none, none⟩).2
      = .ok ⟨some "done".toList, none, none⟩ ∧
    (run_request witnessOps ⟨1, false⟩ ⟨build_system_prompt, some (), some DEFAULT_QUERY⟩
        ⟨false, [], none, some "c".toList⟩).2
      = .ok ⟨none, some "out".toList, some []⟩ ∧
    (run_request witnessOps ⟨1, false⟩ ⟨build_system_prompt, some (), some DEFAULT_QUERY⟩
        ⟨false, [], none, none⟩).2
      = .ok ⟨some "done".toList, none, none⟩ := by
  refine ⟨?_, ?_, ?_, ?_⟩
  · rw [worker_run_dispatch.1 witnessOps ⟨1, false⟩ freshRlmState [] none "c".toList
      () () ⟨"out".toList, [], [], []⟩ rfl rfl]
  · rw [worker_run_dispatch.2.1 witnessOps ⟨1, false⟩ freshRlmState [] none () rfl]
    show (run_completion_loop witnessOps ⟨1, false⟩
        ⟨reset_messages_to_system_prompt (freshRlmState (σ := Unit)).messages, some (),
         some (if ([] : Chars).isEmpty then DEFAULT_QUERY else [])⟩
        (if ([] : Chars).isEmpty then DEFAULT_QUERY else [])).2.map
        (fun resp => (⟨some resp, none, none⟩ : SandboxRunResult)) = _
    rw [show (run_completion_loop witnessOps ⟨1, false⟩
        ⟨reset_messages_to_system_prompt (freshRlmState (σ := Unit)).messages, some (),
         some (if ([] : Chars).isEmpty then DEFAULT_QUERY else [])⟩
        (if ([] : Chars).isEmpty then DEFAULT_QUERY else [])).2 = .ok "done".toList from by decide]
    rfl
  · rw [worker_run_dispatch.2.2.1 witnessOps ⟨1, false⟩
      ⟨build_system_prompt, some (), some DEFAULT_QUERY⟩ [] none "c".toList
      () () ⟨"out".toList, [], [], []⟩ rfl rfl]
  · rw [worker_run_dispatch.2.2.2 witnessOps ⟨1, false⟩
      ⟨build_system_prompt, some (), some DEFAULT_QUERY⟩ [] none () rfl]
    show (run_completion_loop witnessOps ⟨1, false⟩
        ⟨reset_messages_to_system_prompt build_system_prompt, some (),
         some (if ([] : Chars).isEmpty then DEFAULT_QUERY else [])⟩
        (if ([] : Chars).isEmpty then DEFAULT_QUERY else [])).2.map
        (fun resp => (⟨some resp, none, none⟩ : SandboxRunResult)) = _
    rw [show (run_completion_loop witnessOps ⟨1, false⟩
        ⟨reset_messages_to_system_prompt build_system_prompt, some (),
         some (if ([] : Chars).isEmpty then DEFAULT_QUERY else [])⟩
        (if ([] : Chars).isEmpty then DEFAULT_QUERY else [])).2 = .ok "done".toList from by decide]
    rfl

/-! ## Lemmas for the ingress query extraction -/

/-- The reverse scan is `find?` of the user-and-non-empty predicate. -/
theorem revFind_eq_find (l : List OpenAiChatMessage) :
    revFindUserText l
      = (l.find? fun m => m.role == "user".toList && !(openai_message_text m).isEmpty).map
          openai_message_text := by
  induction l with
  | nil => rfl
  | cons m rest ih =>
    by_cases hrole : m.role = "user".toList
    · by_cases hempty : openai_message_text m = []
      · simp only [revFindUserText]
        rw [if_pos (by rw [hrole]; decide), if_neg (by rw [hempty]; decide),
          List.find?_cons_of_neg _ (by rw [hrole, hempty]; decide)]
        exact ih
      · simp only [revFindUserText]
        rw [if_pos (by rw [hrole]; decide),
          if_pos (by simp only [Bool.not_eq_true', List.isEmpty_eq_false]; exact hempty),
          List.find?_cons_of_pos _ (by
            simp only [Bool.and_eq_true, beq_iff_eq, Bool.not_eq_true', List.isEmpty_eq_false]
            exact ⟨hrole, hempty⟩)]
        rfl
    · simp only [revFindUserText]
      rw [if_neg (by simp only [beq_iff_eq]; exact hrole),
        List.find?_cons_of_neg _ (by
          simp only [Bool.and_eq_true, beq_iff_eq]
          exact fun h => hrole h.1)]
      exact ih

/-- The implementation's reverse scan computes the specification's "last
non-empty user message". -/
theorem lastNonempty_eq_revFind (messages : List OpenAiChatMessage) :
    revFindUserText messages.reverse = lastNonemptyUserText messages := by
  rw [revFind_eq_find messages.reverse, lastNonemptyUserText,
    List.getLast?_eq_head?_reverse, ← List.filter_reverse, List.filter_head?]

/-- C8 (amended): the query is the content of the last message whose role
is `user` and whose content text is non-empty; if no such message exists
it is the content of the *last* message provided that content is
non-empty; otherwise it is the default query. -/
theorem ingress_query_extraction :
    (∀ (messages : List OpenAiChatMessage) (t : Chars),
        lastNonemptyUserText messages = some t →
        openai_query_from_messages messages = t) ∧
    (∀ (messages : List OpenAiChatMessage) (m : OpenAiChatMessage),
        lastNonemptyUserText messages = none →
        messages.getLast? = some m →
        (openai_message_text m).isEmpty = false →
        openai_query_from_messages messages = openai_message_text m) ∧
    (∀ (messages : List OpenAiChatMessage),
        lastNonemptyUserText messages = none →
        (∀ m, messages.getLast? = some m → (openai_message_text m).isEmpty = true) →
        openai_query_from_messages messages = DEFAULT_QUERY) := by
  refine ⟨?_, ?_, ?_⟩
  · intro messages t h
    unfold openai_query_from_messages
    rw [lastNonempty_eq_revFind, h]
  · intro messages m h hlast hempty
    unfold openai_query_from_messages
    rw [lastNonempty_eq_revFind, h, hlast]
    simp [hempty]
  · intro messages h hlast
    unfold openai_query_from_messages
    rw [lastNonempty_eq_revFind, h]
    cases hl : messages.getLast? with
    | none => rfl
    | some m => simp [hlast m hl]

/-- C8 counterexample: with no non-empty user message, the code falls back
to the *last* message only — here empty — and returns the default query,
not the last non-empty message (`hello`) the claim requires. -/
theorem ingress_query_extraction_counterexample :
    openai_query_from_messages
        [⟨"assistant".toList, .str "hello".toList⟩, ⟨"assistant".toList, .str []⟩]
      = DEFAULT_QUERY ∧ DEFAULT_QUERY ≠ "hello".toList := by
  exact ⟨by decide, by decide⟩

/-- Witness for C8: the last non-empty user message wins over a later
assistant message. -/
theorem ingress_query_extraction_witness :
    openai_query_from_messages
        [⟨"user".toList, .str "hi".toList⟩, ⟨"assistant".toList, .str "ok".toList⟩]
      = "hi".toList := by
  exact ingress_query_extraction.1 _ "hi".toList (by decide)

/-! ## Lemmas about eviction and the session cap -/

theorem updateActor_length (actors : ActorMap) (sid : String) (f : ActorEntry → ActorEntry) :
    (updateActor actors sid f).length = actors.length :=
  List.length_map _ _

theorem removeActor_length_le (actors : ActorMap) (sid : String) :
    (removeActor actors sid).length ≤ actors.length :=
  List.length_filter_le _ _

/-- Step equation: anchor id absent from the index is skipped. -/
theorem evictScan_cons_notmem (actors : ActorMap) (idx : List String) (sid : String)
    (rest : List String) (h : sid ∉ idx) :
    evictScan actors idx (sid :: rest) = evictScan actors idx rest := by
  simp only [evictScan, if_neg h]

/-- Step equation: an indexed id whose actor is gone is deindexed and skipped. -/
theorem evictScan_cons_none (actors : ActorMap) (idx : List String) (sid : String)
    (rest : List String) (h : sid ∈ idx) (hl : lookupActor actors sid = none) :
    evictScan actors idx (sid :: rest) = evictScan actors (idx.erase sid) rest := by
  simp only [evictScan, if_pos h, hl]

/-- Step equation: an indexed id whose actor has work pending is deindexed
and skipped. -/
theorem evictScan_cons_busy (actors : ActorMap) (idx : List String) (sid : String)
    (rest : List String) (entry : ActorEntry) (h : sid ∈ idx)
    (hl : lookupActor actors sid = some entry) (hp : entry.pending ≠ 0) :
    evictScan actors idx (sid :: rest) = evictScan actors (idx.erase sid) rest := by
  simp only [evictScan, if_pos h, hl]
  rw [if_neg (by simpa using hp)]

/-- Step equation: the first indexed idle actor is evicted. -/
theorem evictScan_cons_idle (actors : ActorMap) (idx : List String) (sid : String)
    (rest : List String) (entry : ActorEntry) (h : sid ∈ idx)
    (hl : lookupActor actors sid = some entry) (hp : entry.pending = 0) :
    evictScan actors idx (sid :: rest)
      = (some sid, removeActor actors sid, rest, idx.erase sid) := by
  simp only [evictScan, if_pos h, hl]
  rw [if_pos (by simpa using hp)]

/-- The scan never grows the actors map. -/
theorem evictScan_actors_length (lru : List String) : ∀ (actors : ActorMap) (idx : List String),
    (evictScan actors idx lru).2.1.length ≤ actors.length := by
  induction lru with
  | nil => intro actors idx; exact Nat.le_refl _
  | cons sid rest ih =>
    intro actors idx
    by_cases hidx : sid ∈ idx
    · cases hl : lookupActor actors sid with
      | none =>
        rw [evictScan_cons_none actors idx sid rest hidx hl]
        exact ih actors _
      | some entry =>
        by_cases hp : entry.pending = 0
        · rw [evictScan_cons_idle actors idx sid rest entry hidx hl hp]
          exact removeActor_length_le actors sid
        · rw [evictScan_cons_busy actors idx sid rest entry hidx hl hp]
          exact ih actors _
    · rw [evictScan_cons_notmem actors idx sid rest hidx]
      exact ih actors idx

/-- A successful scan consumes at least one deque entry. -/
theorem evictScan_some_lru_lt (lru : List String) : ∀ (actors : ActorMap) (idx : List String),
    (evictScan actors idx lru).1.isSome = true →
    (evictScan actors idx lru).2.2.1.length < lru.length := by
  induction lru with
  | nil => intro actors idx h; exact absurd h (by simp [evictScan])
  | cons sid rest ih =>
    intro actors idx h
    by_cases hidx : sid ∈ idx
    · cases hl : lookupActor actors sid with
      | none =>
        rw [evictScan_cons_none actors idx sid rest hidx hl] at h ⊢
        exact Nat.lt_trans (ih actors _ h) (Nat.lt_succ_self _)
      | some entry =>
        by_cases hp : entry.pending = 0
        · rw [evictScan_cons_idle actors idx sid rest entry hidx hl hp]
          exact Nat.lt_succ_self _
        · rw [evictScan_cons_busy actors idx sid rest entry hidx hl hp] at h ⊢
          exact Nat.lt_trans (ih actors _ h) (Nat.lt_succ_self _)
    · rw [evictScan_cons_notmem actors idx sid rest hidx] at h ⊢
      exact Nat.lt_trans (ih actors idx h) (Nat.lt_succ_self _)

/-- A scan that evicts `sid` evicted an actor with no work pending, and
removed exactly that actor from the map. -/
theorem evictScan_some_idle (lru : List String) :
    ∀ (actors : ActorMap) (idx : List String) (sid : String),
    (evictScan actors idx lru).1 = some sid →
    (∃ e, lookupActor actors sid = some e ∧ e.pending = 0) ∧
    (evictScan actors idx lru).2.1 = removeActor actors sid := by
  induction lru with
  | nil => intro actors idx sid h; exact absurd h (by simp [evictScan])
  | cons s rest ih =>
    intro actors idx sid h
    by_cases hidx : s ∈ idx
    · cases hl : lookupActor actors s with
      | none =>
        rw [evictScan_cons_none actors idx s rest hidx hl] at h ⊢
        exact ih actors _ sid h
      | some entry =>
        by_cases hp : entry.pending = 0
        · rw [evictScan_cons_idle actors idx s rest entry hidx hl hp] at h ⊢
          have h2 : some s = some sid := h
          injection h2 with heq
          subst heq
          exact ⟨⟨entry, hl, hp⟩, rfl⟩
        · rw [evictScan_cons_busy actors idx s rest entry hidx hl hp] at h ⊢
          exact ih actors _ sid h
    · rw [evictScan_cons_notmem actors idx s rest hidx] at h ⊢
      exact ih actors idx sid h

/-- Under `noIdleEvictable`-style hypotheses the scan evicts nothing and
leaves the actors map unchanged. -/
theorem evictScan_none_of_noIdle (lru : List String) : ∀ (actors : ActorMap) (idx : List String),
    (∀ sid ∈ lru, sid ∈ idx → ∀ e, lookupActor actors sid = some e → e.pending ≠ 0) →
    (evictScan actors idx lru).1 = none ∧ (evictScan actors idx lru).2.1 = actors := by
  induction lru with
  | nil => intro actors idx _; exact ⟨rfl, rfl⟩
  | cons sid rest ih =>
    intro actors idx hni
    by_cases hidx : sid ∈ idx
    · cases hl : lookupActor actors sid with
      | none =>
        rw [evictScan_cons_none actors idx sid rest hidx hl]
        exact ih actors _ fun s hs hsi e he =>
          hni s (List.mem_cons_of_mem _ hs) (List.mem_of_mem_erase hsi) e he
      | some entry =>
        have hp : entry.pending ≠ 0 :=
          hni sid (List.mem_cons_self _ _) hidx entry hl
        rw [evictScan_cons_busy actors idx sid rest entry hidx hl hp]
        exact ih actors _ fun s hs hsi e he =>
          hni s (List.mem_cons_of_mem _ hs) (List.mem_of_mem_erase hsi) e he
    · rw [evictScan_cons_notmem actors idx sid rest hidx]
      exact ih actors idx fun s hs hsi e he => hni s (List.mem_cons_of_mem _ hs) hsi e he

/-- Eviction never grows the actors map. -/
theorem evict_oldest_actors_le (st : MgrState) :
    (evict_oldest_idle_actor st).2.actors.length ≤ st.actors.length :=
  evictScan_actors_length st.idle_lru st.actors st.idle_index

/-- A successful eviction strictly shrinks the deque. -/
theorem evict_oldest_lru_lt (st : MgrState)
    (h : (evict_oldest_idle_actor st).1.isSome = true) :
    (evict_oldest_idle_actor st).2.idle_lru.length < st.idle_lru.length :=
  evictScan_some_lru_lt st.idle_lru st.actors st.idle_index h

/-- The fuelled capacity loop never grows the actors map. -/
theorem evictUntilAux_actors_le (maxS : Nat) (fuel : Nat) : ∀ st : MgrState,
    (evictUntilAux maxS fuel st).2.actors.length ≤ st.actors.length := by
  induction fuel with
  | zero => intro st; exact Nat.le_refl _
  | succ f ih =>
    intro st
    simp only [evictUntilAux]
    by_cases hlt : st.actors.length < maxS
    · rw [if_pos hlt]
    · rw [if_neg hlt]
      have hle : (evict_oldest_idle_actor st).2.actors.length ≤ st.actors.length :=
        evict_oldest_actors_le st
      rcases he : evict_oldest_idle_actor st with ⟨ev, st'⟩
      rw [he] at hle
      cases ev with
      | none => exact hle
      | some x => exact Nat.le_trans (ih st') hle

/-- The fuelled capacity loop only answers `true` strictly below the cap. -/
theorem evictUntilAux_true_lt (maxS : Nat) (fuel : Nat) : ∀ st : MgrState,
    (evictUntilAux maxS fuel st).1 = true →
    (evictUntilAux maxS fuel st).2.actors.length < maxS := by
  induction fuel with
  | zero => intro st h; exact of_decide_eq_true h
  | succ f ih =>
    intro st h
    simp only [evictUntilAux] at h ⊢
    by_cases hlt : st.actors.length < maxS
    · rw [if_pos hlt]
      exact hlt
    · rw [if_neg hlt] at h ⊢
      rcases he : evict_oldest_idle_actor st with ⟨ev, st'⟩
      rw [he] at h
      cases ev with
      | none => exact absurd h (by simp)
      | some x => exact ih st' h

/-- The fuelled capacity loop is fuel-independent once the fuel exceeds the
deque length: every successful eviction consumes at least one deque entry. -/
theorem evictUntilAux_fuel_irrel (maxS : Nat) (fuel : Nat) : ∀ (fuel' : Nat) (st : MgrState),
    st.idle_lru.length < fuel → st.idle_lru.length < fuel' →
    evictUntilAux maxS fuel st = evictUntilAux maxS fuel' st := by
  induction fuel with
  | zero => intro fuel' st h _; exact absurd h (Nat.not_lt_zero _)
  | succ f ih =>
    intro fuel' st h h'
    cases fuel' with
    | zero => exact absurd h' (Nat.not_lt_zero _)
    | succ f' =>
      simp only [evictUntilAux]
      by_cases hlt : st.actors.length < maxS
      · rw [if_pos hlt, if_pos hlt]
      · rw [if_neg hlt, if_neg hlt]
        have hlru := evict_oldest_lru_lt st
        rcases he : evict_oldest_idle_actor st with ⟨ev, st'⟩
        rw [he] at hlru
        cases ev with
        | none => rfl
        | some x =>
          have hs : st'.idle_lru.length < st.idle_lru.length := hlru rfl
          exact ih f' st' (Nat.lt_of_lt_of_le hs (Nat.le_of_lt_succ h))
            (Nat.lt_of_lt_of_le hs (Nat.le_of_lt_succ h'))

/-- `evict_until_capacity` never grows the actors map. -/
theorem evict_until_capacity_actors_le (maxS : Nat) (st : MgrState) :
    (evict_until_capacity maxS st).2.actors.length ≤ st.actors.length :=
  evictUntilAux_actors_le maxS _ st

/-- `evict_until_capacity` answers `true` only strictly below the cap. -/
theorem evict_until_capacity_true_lt (maxS : Nat) (st : MgrState)
    (h : (evict_until_capacity maxS st).1 = true) :
    (evict_until_capacity maxS st).2.actors.length < maxS :=
  evictUntilAux_true_lt maxS _ st h

/-- Dispatch never grows the actors map. -/
theorem managerDispatch_actors_le (st : MgrState) (sid : String) (reset sendOk : Bool) :
    (managerDispatch st sid reset sendOk).1.actors.length ≤ st.actors.length := by
  simp only [managerDispatch]
  cases sendOk with
  | true =>
    simp only [if_pos]
    exact Nat.le_of_eq (updateActor_length st.actors sid _)
  | false =>
    simp only [Bool.false_eq_true, if_neg]
    exact Nat.le_trans (removeActor_length_le _ sid)
      (Nat.le_of_eq (updateActor_length st.actors sid _))

/-- Processing one request preserves the cap. -/
theorem process_session_request_cap (maxS : Nat) (st : MgrState) (sid : String)
    (reset spawnOk sendOk : Bool) (h : st.actors.length ≤ max maxS 1) :
    (process_session_request maxS st sid reset spawnOk sendOk).1.actors.length
      ≤ max maxS 1 := by
  simp only [process_session_request]
  by_cases hc : containsActor st.actors sid = true
  · rw [if_pos hc]
    exact Nat.le_trans (managerDispatch_actors_le st sid reset sendOk) h
  · rw [if_neg hc]
    have hle := evict_until_capacity_actors_le (max maxS 1) st
    have htrue := evict_until_capacity_true_lt (max maxS 1) st
    rcases hev : evict_until_capacity (max maxS 1) st with ⟨b, st'⟩
    rw [hev] at hle htrue
    cases b with
    | false => exact Nat.le_trans hle h
    | true =>
      have hlt : st'.actors.length < max maxS 1 := htrue rfl
      cases spawnOk with
      | false =>
        simp only [Bool.false_eq_true, if_neg]
        exact Nat.le_trans hle h
      | true =>
        simp only [if_pos]
        exact Nat.le_trans
          (managerDispatch_actors_le ⟨(sid, ⟨0, .idle⟩) :: st'.actors, st'.idle_lru, st'.idle_index⟩
            sid reset sendOk)
          (Nat.succ_le_of_lt hlt)

/-- Draining one finished token preserves the actors count. -/
theorem drain_finished_one_length (st : MgrState) (sid : String) :
    (drain_finished_one st sid).actors.length = st.actors.length := by
  simp only [drain_finished_one]
  split
  · rfl
  · split
    · split
      · simp [updateActor_length]
      · simp [updateActor_length]
    · simp [updateActor_length]

/-- One manager step preserves the cap. -/
theorem mgrStep_cap (maxS : Nat) (st : MgrState) (ev : MgrEvent)
    (h : st.actors.length ≤ max maxS 1) :
    (mgrStep maxS st ev).actors.length ≤ max maxS 1 := by
  cases ev with
  | request sid reset spawnOk sendOk =>
    exact process_session_request_cap maxS st sid reset spawnOk sendOk h
  | finished sid =>
    show (drain_finished_one st sid).actors.length ≤ max maxS 1
    rw [drain_finished_one_length]
    exact h

/-- The cap is preserved along any event trace. -/
theorem mgrFold_cap (maxS : Nat) (events : List MgrEvent) : ∀ st : MgrState,
    st.actors.length ≤ max maxS 1 →
    (events.foldl (mgrStep maxS) st).actors.length ≤ max maxS 1 := by
  induction events with
  | nil => intro st h; exact h
  | cons ev rest ih => intro st h; exact ih _ (mgrStep_cap maxS st ev h)

/-! ## Lemmas about the session actor and the inline session worker -/

/-- The already-retired prefix factors out of the actor run tail. -/
theorem actorRunPart_retired0 {σ κ : Type} (O : ReplOps σ κ) (cfg : RlmCfg)
    (request : ActorRequest κ) (r0 : List (RlmState σ × Bool)) (w : RlmState σ)
    (initialized : Bool) :
    actorRunPart O cfg request r0 w initialized
      = { response := (actorRunPart O cfg request [] w initialized).response,
          slot := (actorRunPart O cfg request [] w initialized).slot,
          retired := r0 ++ (actorRunPart O cfg request [] w initialized).retired } := by
  simp only [actorRunPart]
  rcases hr : run_request O cfg w ⟨!initialized, request.query, request.context, request.code⟩
    with ⟨w', res⟩
  cases res with
  | ok result => simp
  | error e => simp

/-- A reset turn equals the fresh-acquire turn with the old handle retired
first. -/
theorem run_actor_request_reset {σ κ : Type} (O : ReplOps σ κ) (cfg : RlmCfg)
    (acquire : Except Chars Unit) (request : ActorRequest κ)
    (slot : Option (RlmState σ × Bool)) (h : request.reset = true) :
    run_actor_request O cfg acquire request slot
      = { response := (run_actor_request O cfg acquire request none).response,
          slot := (run_actor_request O cfg acquire request none).slot,
          retired := slot.toList
            ++ (run_actor_request O cfg acquire request none).retired } := by
  obtain ⟨r, q, c, code⟩ := request
  have h' : r = true := h
  subst h'
  cases acquire with
  | error e => simp [run_actor_request]
  | ok u => exact actorRunPart_retired0 O cfg ⟨true, q, c, code⟩ slot.toList freshRlmState false

/-- On a run failure the actor answers `Internal`, clears its slot and
retires the failing handle. -/
theorem actorRunPart_error {σ κ : Type} (O : ReplOps σ κ) (cfg : RlmCfg)
    (request : ActorRequest κ) (r0 : List (RlmState σ × Bool)) (w : RlmState σ)
    (initialized : Bool) (w' : RlmState σ) (e : Chars)
    (h : run_request O cfg w ⟨!initialized, request.query, request.context, request.code⟩
      = (w', .error e)) :
    actorRunPart O cfg request r0 w initialized
      = ⟨.error ⟨.internal, e⟩, none, r0 ++ [(w', initialized)]⟩ := by
  simp only [actorRunPart, h]

/-- `containsSession` is false after the entry is removed. -/
theorem containsSession_remove {η : Type} (sessions : SessionMap η) (sid : String) :
    containsSession (removeSessionEntry sessions sid) sid = false := by
  induction sessions with
  | nil => rfl
  | cons p rest ih =>
    simp only [removeSessionEntry, List.filter_cons] at ih ⊢
    by_cases h : (p.1 == sid) = true
    · rw [show (p.1 != sid) = false from by simp [bne, h], if_neg (by simp)]
      exact ih
    · rw [show (p.1 != sid) = true from by simp [bne, h], if_pos rfl]
      show (List.find? (fun q => q.1 == sid) (p :: _)).isSome = false
      rw [List.find?_cons_of_neg _ (by simpa using h)]
      exact ih

/-- `updateSessionEntry` preserves key membership. -/
theorem containsSession_update {η : Type} (sessions : SessionMap η) (sid sid2 : String)
    (v : η × Bool) :
    containsSession (updateSessionEntry sessions sid v) sid2
      = containsSession sessions sid2 := by
  induction sessions with
  | nil => rfl
  | cons p rest ih =>
    simp only [containsSession, updateSessionEntry, List.map_cons] at ih ⊢
    by_cases h : (p.1 == sid) = true
    · rw [if_pos h]
      simp only [List.find?_cons]
      cases hp : (p.1 == sid2) with
      | true => rfl
      | false => exact ih
    · rw [if_neg h]
      simp only [List.find?_cons]
      cases hp : (p.1 == sid2) with
      | true => rfl
      | false => exact ih

/-- A freshly inserted session entry is found. -/
theorem lookupSession_cons_self {η : Type} (sessions : SessionMap η) (sid : String)
    (v : η × Bool) :
    lookupSession ((sid, v) :: sessions) sid = some v := by
  simp only [lookupSession]
  rw [List.find?_cons_of_pos _ (by simp)]
  rfl

/-- A freshly inserted session entry is present. -/
theorem containsSession_cons_self {η : Type} (sessions : SessionMap η) (sid : String)
    (v : η × Bool) :
    containsSession ((sid, v) :: sessions) sid = true := by
  simp only [containsSession]
  rw [List.find?_cons_of_pos _ (by simp)]
  rfl

/-- Below the cap the LRU enforcement is a no-op. -/
theorem enforce_max_sessions_noop {η : Type} (maxS : Nat) (sessions : SessionMap η)
    (order : List String) (h : order.length ≤ maxS) :
    enforce_max_sessions maxS sessions order = (sessions, order, []) := by
  cases order with
  | nil => rfl
  | cons front rest =>
    simp only [enforce_max_sessions]
    rw [if_neg (by simp only [List.length_cons] at h; omega)]

/-- C3: after any sequence of admissions and completions the number of live
session actors never exceeds `max max_sessions 1`; a successful eviction
removes exactly one actor, whose pending count is 0 (idle); and a new
session arriving at or above the cap with no idle session evictable is
answered `Overloaded` with the actors map unchanged (no actor created). -/
theorem session_cap_invariant :
    (∀ (max_sessions : Nat) (events : List MgrEvent),
        (mgrRun max_sessions events).actors.length ≤ max max_sessions 1) ∧
    (∀ (st : MgrState) (sid : String),
        (evict_oldest_idle_actor st).1 = some sid →
        (∃ e, lookupActor st.actors sid = some e ∧ e.pending = 0) ∧
        (evict_oldest_idle_actor st).2.actors = removeActor st.actors sid) ∧
    (∀ (max_sessions : Nat) (st : MgrState) (sid : String) (reset spawnOk sendOk : Bool),
        containsActor st.actors sid = false →
        max max_sessions 1 ≤ st.actors.length →
        noIdleEvictable st →
        (process_session_request max_sessions st sid reset spawnOk sendOk).2
            = some .overloaded ∧
        (process_session_request max_sessions st sid reset spawnOk sendOk).1.actors
            = st.actors) := by
  refine ⟨?_, ?_, ?_⟩
  · intro maxS events
    exact mgrFold_cap maxS events ⟨[], [], []⟩ (Nat.zero_le _)
  · intro st sid h
    exact evictScan_some_idle st.idle_lru st.actors st.idle_index sid h
  · intro maxS st sid reset spawnOk sendOk hc hlen hni
    have hscan := evictScan_none_of_noIdle st.idle_lru st.actors st.idle_index hni
    have hev1 : (evict_oldest_idle_actor st).1 = none := hscan.1
    have hev2 : (evict_oldest_idle_actor st).2.actors = st.actors := hscan.2
    have hcap : evict_until_capacity (max maxS 1) st
        = (false, (evict_oldest_idle_actor st).2) := by
      show evictUntilAux (max maxS 1) (st.idle_lru.length + 1) st = _
      simp only [evictUntilAux]
      rw [if_neg (Nat.not_lt.mpr hlen)]
      rcases he : evict_oldest_idle_actor st with ⟨ev, st'⟩
      rw [he] at hev1
      subst hev1
      rfl
    simp only [process_session_request]
    rw [if_neg (by simp [hc]), hcap]
    exact ⟨rfl, hev2⟩

/-- A reset turn with the pool delivering a worker runs the fresh worker
with `initialize = true`. -/
theorem run_actor_request_reset_fresh {σ κ : Type} (O : ReplOps σ κ) (cfg : RlmCfg)
    (u : Unit) (request : ActorRequest κ) (slot : Option (RlmState σ × Bool))
    (h : request.reset = true) :
    run_actor_request O cfg (.ok u) request slot
      = match run_request O cfg freshRlmState
            ⟨true, request.query, request.context, request.code⟩ with
        | (w', .ok result) =>
          ⟨.ok ⟨result.response, result.stdout, result.stderr⟩, some (w', true), slot.toList⟩
        | (w', .error e) => ⟨.error ⟨.internal, e⟩, none, slot.toList ++ [(w', false)]⟩ := by
  obtain ⟨r, q, c, code⟩ := request
  have h' : r = true := h
  subst h'
  show actorRunPart O cfg ⟨true, q, c, code⟩ slot.toList freshRlmState false = _
  simp only [actorRunPart, Bool.not_false]
  rcases hr : run_request O cfg freshRlmState ⟨true, q, c, code⟩ with ⟨w', res⟩
  cases res with
  | ok result => rfl
  | error e => rfl

/-- C7: a turn with `reset = true` behaves exactly like a turn on an empty
session slot except that the old handle (if any) heads the retirement list
— it is retired to the pool broker before anything else happens; with the
pool delivering a fresh worker, that worker's Run request carries
`initialize = true` on the `RlmRepl::new` state; and the reply and the
resulting slot do not depend on the previous slot, so two consecutive
reset turns leave the session where one does. -/
theorem reset_semantics :
    (∀ (σ κ : Type) (O : ReplOps σ κ) (cfg : RlmCfg) (acquire : Except Chars Unit)
        (request : ActorRequest κ) (slot : Option (RlmState σ × Bool)),
        request.reset = true →
        run_actor_request O cfg acquire request slot
          = { response := (run_actor_request O cfg acquire request none).response,
              slot := (run_actor_request O cfg acquire request none).slot,
              retired := slot.toList
                ++ (run_actor_request O cfg acquire request none).retired }) ∧
    (∀ (σ κ : Type) (O : ReplOps σ κ) (cfg : RlmCfg) (u : Unit)
        (request : ActorRequest κ) (slot : Option (RlmState σ × Bool)),
        request.reset = true →
        run_actor_request O cfg (.ok u) request slot
          = match run_request O cfg freshRlmState
                ⟨true, request.query, request.context, request.code⟩ with
            | (w', .ok result) =>
              ⟨.ok ⟨result.response, result.stdout, result.stderr⟩, some (w', true),
               slot.toList⟩
            | (w', .error e) => ⟨.error ⟨.internal, e⟩, none, slot.toList ++ [(w', false)]⟩) ∧
    (∀ (σ κ : Type) (O : ReplOps σ κ) (cfg : RlmCfg) (acquire : Except Chars Unit)
        (request : ActorRequest κ) (slot1 slot2 : Option (RlmState σ × Bool)),
        request.reset = true →
        (run_actor_request O cfg acquire request slot1).response
            = (run_actor_request O cfg acquire request slot2).response ∧
        (run_actor_request O cfg acquire request slot1).slot
            = (run_actor_request O cfg acquire request slot2).slot) := by
  refine ⟨?_, ?_, ?_⟩
  · intro σ κ O cfg acquire request slot h
    exact run_actor_request_reset O cfg acquire request slot h
  · intro σ κ O cfg u request slot h
    exact run_actor_request_reset_fresh O cfg u request slot h
  · intro σ κ O cfg acquire request slot1 slot2 h
    rw [run_actor_request_reset O cfg acquire request slot1 h,
      run_actor_request_reset O cfg acquire request slot2 h]
    exact ⟨rfl, rfl⟩

/-- An actor turn on an empty slot with the pool delivering a worker whose
initializing run succeeds replies with the result, keeps the new handle
initialized, and retires nothing. -/
theorem run_actor_request_fresh_ok {σ κ : Type} (O : ReplOps σ κ) (cfg : RlmCfg)
    (u : Unit) (request : ActorRequest κ) (w' : RlmState σ) (result : SandboxRunResult)
    (hreset : request.reset = false)
    (hrun : run_request O cfg freshRlmState
        ⟨true, request.query, request.context, request.code⟩ = (w', .ok result)) :
    run_actor_request O cfg (.ok u) request none
      = ⟨.ok ⟨result.response, result.stdout, result.stderr⟩, some (w', true), []⟩ := by
  obtain ⟨r, q, c, code⟩ := request
  have h' : r = false := hreset
  subst h'
  show actorRunPart O cfg ⟨false, q, c, code⟩ [] freshRlmState false = _
  simp [actorRunPart, hrun]

/-- C4 counterexample: on the inline session worker of `main.rs`, a turn
whose sandbox run errors returns the error, retires the failing handle —
and *removes* the session entry, so the entry does not remain live as the
claim requires. -/
theorem worker_failure_recovery_counterexample :
    (handle_session_request_inner 4 (.ok 1)
        (fun (h : Nat) (_ : SandboxRunRequest Unit) =>
          (h, Except.error "worker transport failure".toList))
        [("s", (0, true))] ["s"] ⟨"s", false, [], none, none⟩).1
      = .error "worker transport failure".toList ∧
    containsSession
      (handle_session_request_inner 4 (.ok 1)
        (fun (h : Nat) (_ : SandboxRunRequest Unit) =>
          (h, Except.error "worker transport failure".toList))
        [("s", (0, true))] ["s"] ⟨"s", false, [], none, none⟩).2.1 "s" = false ∧
    (handle_session_request_inner 4 (.ok 1)
        (fun (h : Nat) (_ : SandboxRunRequest Unit) =>
          (h, Except.error "worker transport failure".toList))
        [("s", (0, true))] ["s"] ⟨"s", false, [], none, none⟩).2.2.2 = [0] := by
  exact ⟨by decide, by decide, by decide⟩

/-- C4 (amended): when a sandbox run errors, the caller receives the error
and the failing handle is retired immediately — but what "remains live"
differs by layer.  In the `session.rs` actor the turn answers `Internal`,
retires the failing worker and clears the slot while the actor itself
lives on, and the next turn on the (now empty) slot re-acquires a fresh
pooled worker, runs it with `initialize = true` and can succeed without a
reset.  In the `main.rs` inline worker the error turn *removes* the
session entry (after retiring the failing handle), and it is precisely
because the entry is gone that the next request for the same id acquires a
fresh handle, runs it with `initialize = true` and can succeed without a
reset. -/
theorem worker_failure_recovery :
    (∀ (σ κ : Type) (O : ReplOps σ κ) (cfg : RlmCfg) (request : ActorRequest κ)
        (r0 : List (RlmState σ × Bool)) (w : RlmState σ) (initialized : Bool)
        (w' : RlmState σ) (e : Chars),
        run_request O cfg w ⟨!initialized, request.query, request.context, request.code⟩
            = (w', .error e) →
        actorRunPart O cfg request r0 w initialized
          = ⟨.error ⟨.internal, e⟩, none, r0 ++ [(w', initialized)]⟩) ∧
    (∀ (σ κ : Type) (O : ReplOps σ κ) (cfg : RlmCfg) (u : Unit) (request : ActorRequest κ)
        (w' : RlmState σ) (result : SandboxRunResult),
        request.reset = false →
        run_request O cfg freshRlmState
            ⟨true, request.query, request.context, request.code⟩ = (w', .ok result) →
        run_actor_request O cfg (.ok u) request none
          = ⟨.ok ⟨result.response, result.stdout, result.stderr⟩, some (w', true), []⟩) ∧
    (∀ (η κ : Type)
        (runH : η → SandboxRunRequest κ → η × Except Chars SandboxRunResult)
        (max_sessions : Nat) (sessions1 : SessionMap η) (order0 : List String)
        (retired0 : List η) (task : SessionTask κ) (s : η × Bool) (w' : η) (e : Chars),
        lookupSession (enforce_max_sessions max_sessions sessions1
            (touch_session order0 task.session_id)).1 task.session_id = some s →
        runH s.1 ⟨!s.2, task.query, task.context, task.code⟩ = (w', .error e) →
        (sessionRunTail runH max_sessions sessions1 order0 retired0 task).1 = .error e ∧
        containsSession
          (sessionRunTail runH max_sessions sessions1 order0 retired0 task).2.1
          task.session_id = false ∧
        (sessionRunTail runH max_sessions sessions1 order0 retired0 task).2.2.2
          = (retired0 ++ (enforce_max_sessions max_sessions sessions1
              (touch_session order0 task.session_id)).2.2) ++ [w']) ∧
    (∀ (η κ : Type) (max_sessions : Nat) (h : η)
        (runH : η → SandboxRunRequest κ → η × Except Chars SandboxRunResult)
        (sessions : SessionMap η) (order : List String) (task : SessionTask κ)
        (h' : η) (result : SandboxRunResult),
        task.reset = false →
        containsSession sessions task.session_id = false →
        task.session_id ∉ order →
        order.length < max_sessions →
        runH h ⟨true, task.query, task.context, task.code⟩ = (h', .ok result) →
        (handle_session_request_inner max_sessions (.ok h) runH sessions order task).1
          = .ok ⟨task.session_id, result.response, result.stdout, result.stderr⟩ ∧
        containsSession
          (handle_session_request_inner max_sessions (.ok h) runH sessions order task).2.1
          task.session_id = true) := by
  refine ⟨?_, ?_, ?_, ?_⟩
  · intro σ κ O cfg request r0 w initialized w' e hrun
    exact actorRunPart_error O cfg request r0 w initialized w' e hrun
  · intro σ κ O cfg u request w' result hreset hrun
    exact run_actor_request_fresh_ok O cfg u request w' result hreset hrun
  · intro η κ runH maxS sessions1 order0 retired0 task s w' e hlook hrun
    have hmain : sessionRunTail runH maxS sessions1 order0 retired0 task
        = (.error e,
           removeSessionEntry (enforce_max_sessions maxS sessions1
             (touch_session order0 task.session_id)).1 task.session_id,
           remove_session (enforce_max_sessions maxS sessions1
             (touch_session order0 task.session_id)).2.1 task.session_id,
           (retired0 ++ (enforce_max_sessions maxS sessions1
             (touch_session order0 task.session_id)).2.2) ++ [w']) := by
      simp only [sessionRunTail, hlook, hrun]
    refine ⟨by rw [hmain], ?_, by rw [hmain]⟩
    rw [hmain]
    exact containsSession_remove _ _
  · intro η κ maxS h runH sessions order task h' result hreset hcont hmem hlen hrun
    have hstep : handle_session_request_inner maxS (.ok h) runH sessions order task
        = sessionRunTail runH maxS ((task.session_id, (h, false)) :: sessions) order []
            task := by
      simp [handle_session_request_inner, hreset, hcont]
    have htouch : touch_session order task.session_id = order ++ [task.session_id] := by
      simp only [touch_session, List.erase_of_not_mem hmem]
    have henf : enforce_max_sessions maxS ((task.session_id, (h, false)) :: sessions)
          (order ++ [task.session_id])
        = ((task.session_id, (h, false)) :: sessions, order ++ [task.session_id], []) :=
      enforce_max_sessions_noop maxS _ _
        (by simp only [List.length_append, List.length_cons, List.length_nil]; omega)
    have htail : sessionRunTail runH maxS ((task.session_id, (h, false)) :: sessions)
          order [] task
        = (.ok ⟨task.session_id, result.response, result.stdout, result.stderr⟩,
           updateSessionEntry ((task.session_id, (h, false)) :: sessions)
             task.session_id (h', true),
           order ++ [task.session_id], []) := by
      simp [sessionRunTail, htouch, henf,
        lookupSession_cons_self sessions task.session_id (h, false), hrun]
    rw [hstep, htail]
    refine ⟨rfl, ?_⟩
    show containsSession
        (updateSessionEntry ((task.session_id, (h, false)) :: sessions)
          task.session_id (h', true)) task.session_id = true
    rw [containsSession_update]
    exact containsSession_cons_self sessions task.session_id (h, false)

end Rlm
